import Mathlib

/-!
Shallow embedding of `src/Design.cpp` (a multi-level parking garage).

The C++ classes `Machine`, `Slot`, `Level` and `Garage` become Lean
structures; each mutating member function becomes a pure function that
returns the C++ return value together with the updated object.  The two
`unordered_map` members of `Garage` are modelled as association lists
(keys are unique in every reachable state, matching the C++ maps).
-/

/-- `enum class MachineKind`. -/
inductive MachineKind where
  | Bike
  | Car
  | Truck
deriving DecidableEq, Repr

/-- `class Machine`: identifier plus kind. -/
structure Machine where
  identifier : String
  kind : MachineKind
deriving DecidableEq, Repr

/-- `Machine::slotsNeeded`: 2 for a truck, else 1. -/
def Machine.slotsNeeded (m : Machine) : Nat :=
  if m.kind = MachineKind.Truck then 2 else 1

/-- `class Slot`: one parking spot. A fresh slot has an empty occupant
string (the C++ member is a default-constructed `std::string`). -/
structure Slot where
  levelIndex : Nat
  slotIndex : Nat
  isOccupied : Bool
  occupantId : String
deriving DecidableEq, Repr

/-- `Slot::occupySlot`: fails if already occupied, otherwise records the
occupant and marks the slot occupied. -/
def Slot.occupySlot (s : Slot) (machineId : String) : Bool × Slot :=
  if s.isOccupied then (false, s)
  else (true, { s with occupantId := machineId, isOccupied := true })

/-- `Slot::vacateSlot`: fails if already free, otherwise clears the
occupant (`occupantId.clear()`) and marks the slot free. -/
def Slot.vacateSlot (s : Slot) : Bool × Slot :=
  if s.isOccupied then (true, { s with occupantId := "", isOccupied := false })
  else (false, s)

/-- `class Level`: a floor holding a vector of slots. -/
structure Level where
  levelIndex : Nat
  slotList : List Slot
deriving DecidableEq, Repr

/-- The `Level(index, totalSlots)` constructor: slots `0 .. totalSlots-1`,
all free. -/
def Level.mkLevel (index totalSlots : Nat) : Level :=
  { levelIndex := index
    slotList := (List.range totalSlots).map fun i =>
      { levelIndex := index, slotIndex := i, isOccupied := false, occupantId := "" } }

/-- The `needed == 1` loop of `Level::spotsAvailable`: the `slotIndex` of
the first unoccupied slot, or `[]`. -/
def firstFreeSlot : List Slot → List Nat
  | [] => []
  | s :: rest => if s.isOccupied then firstFreeSlot rest else [s.slotIndex]

/-- The `needed == 2` loop of `Level::spotsAvailable`: the `slotIndex`es of
the first adjacent unoccupied pair, or `[]`. -/
def firstFreePair : List Slot → List Nat
  | a :: b :: rest =>
      if !a.isOccupied && !b.isOccupied then [a.slotIndex, b.slotIndex]
      else firstFreePair (b :: rest)
  | _ => []

/-- `Level::spotsAvailable`. -/
def Level.spotsAvailable (lvl : Level) (machine : Machine) : List Nat :=
  if machine.slotsNeeded = 1 then firstFreeSlot lvl.slotList
  else firstFreePair lvl.slotList

/-- `slotList[idx].isOccupied` as used by the check loop of
`Level::assignMachine` (out-of-range reads never occur in reachable
states; they are mapped to `false`). -/
def slotOccupiedAt (sl : List Slot) (idx : Nat) : Bool :=
  match sl[idx]? with
  | some s => s.isOccupied
  | none => false

/-- `slotList[idx].occupySlot(id)` as used by the occupy loop of
`Level::assignMachine`. -/
def occupyListAt (sl : List Slot) (idx : Nat) (machineId : String) : List Slot :=
  match sl[idx]? with
  | some s => sl.set idx (s.occupySlot machineId).2
  | none => sl

/-- `Level::assignMachine`: first re-checks that every listed slot is
free (returning `false` with no mutation otherwise), then occupies each
listed slot. -/
def Level.assignMachine (lvl : Level) (machine : Machine) (slotsToUse : List Nat) :
    Bool × Level :=
  if slotsToUse.any (fun idx => slotOccupiedAt lvl.slotList idx) then
    (false, lvl)
  else
    (true, { lvl with
      slotList := slotsToUse.foldl (fun sl idx => occupyListAt sl idx machine.identifier)
        lvl.slotList })

/-- `Level::removeMachine`: vacates every slot whose occupant equals the
identifier; returns whether at least one slot matched. -/
def Level.removeMachine (lvl : Level) (machineId : String) : Bool × Level :=
  (lvl.slotList.any fun s => s.isOccupied && s.occupantId == machineId,
   { lvl with slotList := lvl.slotList.map fun s =>
      if s.isOccupied && s.occupantId == machineId then (s.vacateSlot).2 else s })

/-- `Level::freeSlotsCount`. -/
def Level.freeSlotsCount (lvl : Level) : Nat :=
  lvl.slotList.countP fun s => !s.isOccupied

/-- `class Garage`: levels plus the two identifier-keyed maps. -/
structure Garage where
  levels : List Level
  machineLocations : List (String × (Nat × List Nat))
  machineCatalog : List (String × Machine)
deriving DecidableEq, Repr

/-- The `Garage(totalLevels, slotsEach)` constructor. -/
def Garage.mkGarage (totalLevels slotsEach : Nat) : Garage :=
  { levels := (List.range totalLevels).map fun i => Level.mkLevel i slotsEach
    machineLocations := []
    machineCatalog := [] }

/-- One iteration body of the level loop in `Garage::storeMachine`:
`!slotIndices.empty() && lvl.assignMachine(machine, slotIndices)`. -/
def Level.tryStore (lvl : Level) (machine : Machine) : Option (Level × List Nat) :=
  let slotIndices := lvl.spotsAvailable machine
  if slotIndices.isEmpty then none
  else
    let r := lvl.assignMachine machine slotIndices
    if r.1 then some (r.2, slotIndices) else none

/-- The level loop of `Garage::storeMachine`: returns the updated level
list, the winning level's `levelIndex` and the chosen slot indices. -/
def storeLoop (machine : Machine) : List Level → Option (List Level × Nat × List Nat)
  | [] => none
  | lvl :: rest =>
    match lvl.tryStore machine with
    | some (lvl', si) => some (lvl' :: rest, lvl.levelIndex, si)
    | none =>
      match storeLoop machine rest with
      | some (rest', li, si) => some (lvl :: rest', li, si)
      | none => none

/-- `Garage::storeMachine`: fails if the identifier is already parked,
otherwise scans the levels in order and records the first successful
assignment in both maps. -/
def Garage.storeMachine (g : Garage) (machine : Machine) : Bool × Garage :=
  if (g.machineLocations.lookup machine.identifier).isSome then (false, g)
  else
    match storeLoop machine g.levels with
    | some (levels', li, si) =>
      (true, { levels := levels'
               machineLocations := (machine.identifier, (li, si)) :: g.machineLocations
               machineCatalog := (machine.identifier, machine) :: g.machineCatalog })
    | none => (false, g)

/-- `Garage::unparkMachine`: fails if the identifier has no location
record; otherwise delegates to the recorded level's `removeMachine` and,
on success, erases the identifier from both maps. -/
def Garage.unparkMachine (g : Garage) (machineId : String) : Bool × Garage :=
  match g.machineLocations.lookup machineId with
  | none => (false, g)
  | some (whichLevel, _) =>
    match g.levels[whichLevel]? with
    | none => (false, g)
    | some lvl =>
      let r := lvl.removeMachine machineId
      if r.1 then
        (true, { levels := g.levels.set whichLevel r.2
                 machineLocations := g.machineLocations.eraseP fun p => p.1 == machineId
                 machineCatalog := g.machineCatalog.eraseP fun p => p.1 == machineId })
      else (false, g)

/-- The kind parsing at the `add_machine` command boundary in `main`:
anything other than `Bike` or `Car` becomes a truck. -/
def parseKind (kindStr : String) : MachineKind :=
  if kindStr = "Bike" then MachineKind.Bike
  else if kindStr = "Car" then MachineKind.Car
  else MachineKind.Truck

/-- The slot stored at level index `li`, slot position `si`. -/
def Garage.getSlot (g : Garage) (li si : Nat) : Option Slot :=
  match g.levels[li]? with
  | some lvl => lvl.slotList[si]?
  | none => none

/-- Total free slots over all levels (`check_availability` sum). -/
def Garage.freeTotal (g : Garage) : Nat :=
  (g.levels.map Level.freeSlotsCount).sum

/-- Total slots needed by all currently parked machines. -/
def Garage.parkedTotal (g : Garage) : Nat :=
  (g.machineCatalog.map fun p => p.2.slotsNeeded).sum

/-- The garage states reachable from a freshly constructed
`Garage(L, N)` by `storeMachine` / `unparkMachine` calls. -/
inductive Garage.Reachable (L N : Nat) : Garage → Prop where
  | init : Garage.Reachable L N (Garage.mkGarage L N)
  | store {g : Garage} (m : Machine) :
      Garage.Reachable L N g → Garage.Reachable L N (g.storeMachine m).2
  | unpark {g : Garage} (id : String) :
      Garage.Reachable L N g → Garage.Reachable L N (g.unparkMachine id).2

/-! ### Association-list helpers (the `unordered_map` model) -/

lemma lookup_cons {β : Type _} (k a : String) (v : β) (l : List (String × β)) :
    ((k, v) :: l).lookup a = if a = k then some v else l.lookup a := by
  rw [List.lookup]
  by_cases h : a = k
  · simp [h]
  · simp [h, beq_eq_false_iff_ne.mpr h]

lemma lookup_eq_none_iff {β : Type _} (l : List (String × β)) (a : String) :
    l.lookup a = none ↔ a ∉ l.map Prod.fst := by
  induction l with
  | nil => simp
  | cons p rest ih =>
    obtain ⟨k, v⟩ := p
    rw [lookup_cons]
    by_cases h : a = k <;> simp [h, ih]

lemma lookup_isSome_iff {β : Type _} (l : List (String × β)) (a : String) :
    (l.lookup a).isSome = true ↔ a ∈ l.map Prod.fst := by
  have := lookup_eq_none_iff (l := l) (a := a)
  cases h : l.lookup a <;> simp [h] at this ⊢ <;> tauto

lemma lookup_mem {β : Type _} {l : List (String × β)} {a : String} {b : β}
    (h : l.lookup a = some b) : (a, b) ∈ l := by
  induction l with
  | nil => simp [List.lookup] at h
  | cons p rest ih =>
    obtain ⟨k, v⟩ := p
    rw [lookup_cons] at h
    by_cases hk : a = k
    · simp [hk] at h; simp [hk, h]
    · simp [hk] at h; exact List.mem_cons_of_mem _ (ih h)

lemma mem_lookup_of_nodup {β : Type _} {l : List (String × β)} {a : String} {b : β}
    (hnd : (l.map Prod.fst).Nodup) (h : (a, b) ∈ l) : l.lookup a = some b := by
  induction l with
  | nil => simp at h
  | cons p rest ih =>
    obtain ⟨k, v⟩ := p
    simp only [List.map_cons, List.nodup_cons] at hnd
    rw [lookup_cons]
    rcases List.mem_cons.mp h with h1 | h1
    · obtain ⟨rfl, rfl⟩ := Prod.mk.injEq .. ▸ h1
      simp
    · by_cases hk : a = k
      · subst hk
        exact absurd (List.mem_map.mpr ⟨(a, b), h1, rfl⟩) hnd.1
      · simp [hk, ih hnd.2 h1]

lemma lookup_eraseP_ne {β : Type _} (l : List (String × β)) (a b : String) (hab : b ≠ a) :
    (l.eraseP fun p => p.1 == a).lookup b = l.lookup b := by
  induction l with
  | nil => simp
  | cons p rest ih =>
    obtain ⟨k, v⟩ := p
    by_cases hk : k = a
    · rw [List.eraseP_cons_of_pos (by simp [hk]), lookup_cons, if_neg (hk ▸ hab)]
    · rw [List.eraseP_cons_of_neg (by simp [hk]), lookup_cons, lookup_cons, ih]

lemma lookup_eraseP_self {β : Type _} (l : List (String × β)) (a : String)
    (hnd : (l.map Prod.fst).Nodup) :
    (l.eraseP fun p => p.1 == a).lookup a = none := by
  induction l with
  | nil => simp
  | cons p rest ih =>
    obtain ⟨k, v⟩ := p
    simp only [List.map_cons, List.nodup_cons] at hnd
    by_cases hk : k = a
    · rw [List.eraseP_cons_of_pos (by simp [hk])]
      rw [lookup_eq_none_iff]
      intro hmem
      exact hnd.1 (hk ▸ hmem)
    · rw [List.eraseP_cons_of_neg (by simp [hk]), lookup_cons, if_neg (fun h => hk h.symm),
        ih hnd.2]

lemma nodup_keys_eraseP {β : Type _} (l : List (String × β)) (q : String × β → Bool)
    (hnd : (l.map Prod.fst).Nodup) : ((l.eraseP q).map Prod.fst).Nodup :=
  ((List.eraseP_sublist l).map Prod.fst).nodup hnd

/-! ### Positional list helpers -/

lemma countP_set_add {α : Type _} (p : α → Bool) (l : List α) (j : Nat) (v s : α)
    (h : l[j]? = some s) :
    (l.set j v).countP p + (if p s then 1 else 0) = l.countP p + (if p v then 1 else 0) := by
  induction l generalizing j with
  | nil => simp at h
  | cons a t ih =>
    cases j with
    | zero =>
      simp only [List.getElem?_cons_zero, Option.some.injEq] at h
      subst h
      simp only [List.set_cons_zero, List.countP_cons]
      omega
    | succ j =>
      simp only [List.getElem?_cons_succ] at h
      simp only [List.set_cons_succ, List.countP_cons]
      have := ih j h
      omega

lemma sum_map_set_add {α : Type _} (f : α → Nat) (l : List α) (j : Nat) (v s : α)
    (h : l[j]? = some s) :
    ((l.set j v).map f).sum + f s = (l.map f).sum + f v := by
  induction l generalizing j with
  | nil => simp at h
  | cons a t ih =>
    cases j with
    | zero =>
      simp only [List.getElem?_cons_zero, Option.some.injEq] at h
      subst h
      simp only [List.set_cons_zero, List.map_cons, List.sum_cons]
      omega
    | succ j =>
      simp only [List.getElem?_cons_succ] at h
      simp only [List.set_cons_succ, List.map_cons, List.sum_cons]
      have := ih j h
      omega

lemma length_occupyListAt (sl : List Slot) (idx : Nat) (id : String) :
    (occupyListAt sl idx id).length = sl.length := by
  unfold occupyListAt
  cases h : sl[idx]? <;> simp

lemma getElem?_occupyListAt (sl : List Slot) (idx : Nat) (id : String) (p : Nat) :
    (occupyListAt sl idx id)[p]? =
      if p = idx then (sl[p]?).map (fun s => (s.occupySlot id).2) else sl[p]? := by
  unfold occupyListAt
  cases h : sl[idx]? with
  | none =>
    by_cases hp : p = idx
    · subst hp; simp [h]
    · simp [hp]
  | some s =>
    by_cases hp : p = idx
    · subst hp
      rw [List.getElem?_set_self (by exact (List.getElem?_eq_some.mp h).1), h]
      simp
    · rw [List.getElem?_set_ne (fun hh => hp hh.symm)]
      simp [hp]

lemma occupyFold_getElem (idxs : List Nat) (sl : List Slot) (id : String) (p : Nat) :
    (idxs.foldl (fun acc i => occupyListAt acc i id) sl)[p]? =
      if p ∈ idxs then
        (sl[p]?).map fun s =>
          if s.isOccupied then s else { s with occupantId := id, isOccupied := true }
      else sl[p]? := by
  induction idxs generalizing sl with
  | nil => simp
  | cons i rest ih =>
    simp only [List.foldl_cons]
    rw [ih, getElem?_occupyListAt]
    by_cases hp : p = i
    · subst hp
      by_cases hm : p ∈ rest <;> simp only [hm, if_true, if_false, List.mem_cons, true_or,
        if_pos, Option.map_map] <;>
        · cases hs : sl[p]? with
          | none => simp
          | some s =>
            simp only [Option.map_some, Slot.occupySlot]
            by_cases ho : s.isOccupied <;> simp [ho]
    · by_cases hm : p ∈ rest
      · simp [hp, hm]
      · simp [hp, hm, List.mem_cons]

lemma length_occupyFold (idxs : List Nat) (sl : List Slot) (id : String) :
    (idxs.foldl (fun acc i => occupyListAt acc i id) sl).length = sl.length := by
  induction idxs generalizing sl with
  | nil => rfl
  | cons i rest ih => simp [List.foldl_cons, ih, length_occupyListAt]

/-! ### First-fit scan characterization -/

lemma firstFreeSlot_eq_nil_iff (sl : List Slot) :
    firstFreeSlot sl = [] ↔ ∀ s ∈ sl, s.isOccupied = true := by
  induction sl with
  | nil => simp [firstFreeSlot]
  | cons a rest ih =>
    by_cases h : a.isOccupied <;> simp [firstFreeSlot, h, ih]

lemma firstFreeSlot_spec (sl : List Slot) (hne : firstFreeSlot sl ≠ []) :
    ∃ (j : Nat) (s : Slot), sl[j]? = some s ∧ s.isOccupied = false ∧
      firstFreeSlot sl = [s.slotIndex] ∧
      ∀ (p : Nat) (s' : Slot), p < j → sl[p]? = some s' → s'.isOccupied = true := by
  induction sl with
  | nil => simp [firstFreeSlot] at hne
  | cons a rest ih =>
    by_cases h : a.isOccupied
    · have heq : firstFreeSlot (a :: rest) = firstFreeSlot rest := by
        simp [firstFreeSlot, h]
      rw [heq] at hne ⊢
      obtain ⟨j, s, h1, h2, h3, h4⟩ := ih hne
      refine ⟨j + 1, s, by rw [List.getElem?_cons_succ]; exact h1, h2, h3,
        fun p s' hp hs' => ?_⟩
      cases p with
      | zero =>
        simp only [List.getElem?_cons_zero, Option.some.injEq] at hs'
        exact hs' ▸ h
      | succ q =>
        rw [List.getElem?_cons_succ] at hs'
        exact h4 q s' (by omega) hs'
    · exact ⟨0, a, by simp, by simpa using h, by simp [firstFreeSlot, h],
        fun p s' hp => by omega⟩

lemma pair_not_both_free {a b : Slot} (hab : (!a.isOccupied && !b.isOccupied) = false) :
    a.isOccupied = true ∨ b.isOccupied = true := by
  rcases Bool.eq_false_or_eq_true a.isOccupied with ha | ha
  · exact Or.inl ha
  · rcases Bool.eq_false_or_eq_true b.isOccupied with hb | hb
    · exact Or.inr hb
    · rw [ha, hb] at hab; simp at hab

lemma firstFreePair_eq_nil_iff (sl : List Slot) :
    firstFreePair sl = [] ↔ ∀ (j : Nat) (a b : Slot), sl[j]? = some a → sl[j+1]? = some b →
      a.isOccupied = true ∨ b.isOccupied = true := by
  induction sl with
  | nil => simp [firstFreePair]
  | cons a tail ih =>
    cases tail with
    | nil =>
      simp only [firstFreePair, true_iff]
      intro j x y hx hy
      cases j <;> simp at hy
    | cons b rest =>
      cases hab : (!a.isOccupied && !b.isOccupied) with
      | false =>
        have heq : firstFreePair (a :: b :: rest) = firstFreePair (b :: rest) := by
          simp [firstFreePair, hab]
        rw [heq, ih]
        constructor
        · intro hall j x y hx hy
          cases j with
          | zero =>
            simp only [List.getElem?_cons_zero, Option.some.injEq] at hx
            rw [List.getElem?_cons_succ, List.getElem?_cons_zero] at hy
            obtain rfl : x = a := hx.symm
            obtain rfl : y = b := (Option.some.injEq .. ▸ hy).symm
            exact pair_not_both_free hab
          | succ q =>
            rw [List.getElem?_cons_succ] at hx hy
            exact hall q x y hx hy
        · intro hall j x y hx hy
          exact hall (j + 1) x y (by rw [List.getElem?_cons_succ]; exact hx)
            (by rw [List.getElem?_cons_succ]; exact hy)
      | true =>
        have heq : firstFreePair (a :: b :: rest) = [a.slotIndex, b.slotIndex] := by
          simp [firstFreePair, hab]
        rw [heq]
        simp only [List.cons_ne_nil, false_iff, not_forall]
        simp only [Bool.and_eq_true, Bool.not_eq_true'] at hab
        exact ⟨0, a, b, by simp, by simp, by simp [hab.1, hab.2]⟩

lemma firstFreePair_spec (sl : List Slot) (hne : firstFreePair sl ≠ []) :
    ∃ (j : Nat) (a b : Slot), sl[j]? = some a ∧ sl[j+1]? = some b ∧ a.isOccupied = false ∧
      b.isOccupied = false ∧ firstFreePair sl = [a.slotIndex, b.slotIndex] ∧
      ∀ (p : Nat) (a' b' : Slot), p < j → sl[p]? = some a' → sl[p+1]? = some b' →
        a'.isOccupied = true ∨ b'.isOccupied = true := by
  induction sl with
  | nil => simp [firstFreePair] at hne
  | cons a tail ih =>
    cases tail with
    | nil => simp [firstFreePair] at hne
    | cons b rest =>
      cases hab : (!a.isOccupied && !b.isOccupied) with
      | false =>
        have heq : firstFreePair (a :: b :: rest) = firstFreePair (b :: rest) := by
          simp [firstFreePair, hab]
        rw [heq] at hne ⊢
        obtain ⟨j, x, y, hx, hy, hxo, hyo, hres, hmin⟩ := ih hne
        refine ⟨j + 1, x, y, by rw [List.getElem?_cons_succ]; exact hx,
          by rw [List.getElem?_cons_succ]; exact hy, hxo, hyo, hres,
          fun p a' b' hp ha' hb' => ?_⟩
        cases p with
        | zero =>
          simp only [List.getElem?_cons_zero, Option.some.injEq] at ha'
          rw [List.getElem?_cons_succ, List.getElem?_cons_zero] at hb'
          obtain rfl : a' = a := ha'.symm
          obtain rfl : b' = b := (Option.some.injEq .. ▸ hb').symm
          exact pair_not_both_free hab
        | succ q =>
          rw [List.getElem?_cons_succ] at ha' hb'
          exact hmin q a' b' (by omega) ha' hb'
      | true =>
        have hab' := hab
        simp only [Bool.and_eq_true, Bool.not_eq_true'] at hab'
        refine ⟨0, a, b, by simp, by simp, hab'.1, hab'.2, ?_, fun p a' b' hp => by omega⟩
        simp only [firstFreePair]
        rw [if_pos hab]

/-! ### Level-layer lemmas -/

/-- A level as built by the constructor and maintained by the operations:
`N` slots, the slot stored at position `j` carries `slotIndex = j`, and a
free slot has an empty occupant string. -/
def Level.WF (N : Nat) (lvl : Level) : Prop :=
  lvl.slotList.length = N ∧
  (∀ (j : Nat) (s : Slot), lvl.slotList[j]? = some s → s.slotIndex = j) ∧
  (∀ s ∈ lvl.slotList, s.isOccupied = false → s.occupantId = "")

lemma slotsNeeded_cases (m : Machine) : m.slotsNeeded = 1 ∨ m.slotsNeeded = 2 := by
  unfold Machine.slotsNeeded
  by_cases h : m.kind = MachineKind.Truck <;> simp [h]

lemma spotsAvailable_one {lvl : Level} {m : Machine} (hm : m.slotsNeeded = 1) :
    lvl.spotsAvailable m = firstFreeSlot lvl.slotList := by
  simp [Level.spotsAvailable, hm]

lemma spotsAvailable_two {lvl : Level} {m : Machine} (hm : m.slotsNeeded = 2) :
    lvl.spotsAvailable m = firstFreePair lvl.slotList := by
  simp [Level.spotsAvailable, hm]

lemma assignMachine_single {lvl : Level} {m : Machine} {j : Nat} {s : Slot}
    (hj : lvl.slotList[j]? = some s) (hfree : s.isOccupied = false) :
    lvl.assignMachine m [j] =
      (true, { lvl with slotList := (lvl.slotList.set j
        ({ s with occupantId := m.identifier, isOccupied := true })) }) := by
  unfold Level.assignMachine
  rw [if_neg]
  · simp only [List.foldl_cons, List.foldl_nil]
    unfold occupyListAt
    rw [hj]
    simp [Slot.occupySlot, hfree]
  · simp [slotOccupiedAt, hj, hfree]

lemma assignMachine_pair {lvl : Level} {m : Machine} {j : Nat} {a b : Slot}
    (hja : lvl.slotList[j]? = some a) (hjb : lvl.slotList[j+1]? = some b)
    (ha : a.isOccupied = false) (hb : b.isOccupied = false) :
    lvl.assignMachine m [j, j+1] =
      (true, { lvl with slotList :=
        ((lvl.slotList.set j ({ a with occupantId := m.identifier, isOccupied := true })).set
          (j+1) ({ b with occupantId := m.identifier, isOccupied := true })) }) := by
  unfold Level.assignMachine
  rw [if_neg]
  · simp only [List.foldl_cons, List.foldl_nil]
    have h1 : occupyListAt lvl.slotList j m.identifier =
        lvl.slotList.set j { a with occupantId := m.identifier, isOccupied := true } := by
      unfold occupyListAt
      rw [hja]
      simp [Slot.occupySlot, ha]
    rw [h1]
    unfold occupyListAt
    rw [List.getElem?_set_ne (by omega), hjb]
    simp [Slot.occupySlot, hb]
  · simp [slotOccupiedAt, hja, hjb, ha, hb]

lemma removeMachine_snd_getElem (lvl : Level) (id : String) (p : Nat) :
    (lvl.removeMachine id).2.slotList[p]? = (lvl.slotList[p]?).map
      (fun s => if s.isOccupied && s.occupantId == id then
        { s with occupantId := "", isOccupied := false } else s) := by
  unfold Level.removeMachine
  simp only [List.getElem?_map]
  cases hs : lvl.slotList[p]? with
  | none => rfl
  | some s =>
    show some _ = some _
    by_cases hc : (s.isOccupied && s.occupantId == id) = true
    · have hocc : s.isOccupied = true := (Bool.and_eq_true .. ▸ hc).1
      simp [hc, Slot.vacateSlot, hocc]
    · simp [Bool.eq_false_iff.mpr hc]

lemma removeMachine_single {lvl : Level} {id : String} {j : Nat} {s : Slot}
    (hj : lvl.slotList[j]? = some s) (hocc : s.isOccupied = true) (hid : s.occupantId = id)
    (hothers : ∀ (p : Nat) (s' : Slot), lvl.slotList[p]? = some s' → p ≠ j →
      (s'.isOccupied && s'.occupantId == id) = false) :
    lvl.removeMachine id =
      (true, { lvl with slotList := (lvl.slotList.set j
        ({ s with occupantId := "", isOccupied := false })) }) := by
  have hjlt : j < lvl.slotList.length := (List.getElem?_eq_some.mp hj).1
  refine Prod.ext ?_ ?_
  · show (lvl.removeMachine id).1 = true
    unfold Level.removeMachine
    simp only [List.any_eq_true]
    exact ⟨s, List.getElem?_mem hj, by simp [hocc, hid]⟩
  · show (lvl.removeMachine id).2 = _
    have hsl : (lvl.removeMachine id).2.slotList =
        lvl.slotList.set j { s with occupantId := "", isOccupied := false } := by
      apply List.ext_getElem?
      intro p
      rw [removeMachine_snd_getElem]
      by_cases hp : p = j
      · subst hp
        rw [List.getElem?_set_self hjlt, hj]
        simp [hocc, hid]
      · rw [List.getElem?_set_ne (fun h => hp h.symm)]
        cases hs' : lvl.slotList[p]? with
        | none => rfl
        | some s' =>
          have hc := hothers p s' hs' hp
          show some (if (s'.isOccupied && s'.occupantId == id) = true then
            { s' with occupantId := "", isOccupied := false } else s') = some s'
          rw [hc]
          simp
    have hli : (lvl.removeMachine id).2.levelIndex = lvl.levelIndex := by
      unfold Level.removeMachine
      rfl
    cases hr : (lvl.removeMachine id).2 with
    | mk li sl =>
      rw [hr] at hsl hli
      simp only at hsl hli
      simp [hsl, hli]

lemma removeMachine_pair {lvl : Level} {id : String} {j : Nat} {a b : Slot}
    (hja : lvl.slotList[j]? = some a) (hjb : lvl.slotList[j+1]? = some b)
    (hocca : a.isOccupied = true) (hida : a.occupantId = id)
    (hoccb : b.isOccupied = true) (hidb : b.occupantId = id)
    (hothers : ∀ (p : Nat) (s' : Slot), lvl.slotList[p]? = some s' → p ≠ j → p ≠ j + 1 →
      (s'.isOccupied && s'.occupantId == id) = false) :
    lvl.removeMachine id =
      (true, { lvl with slotList :=
        ((lvl.slotList.set j ({ a with occupantId := "", isOccupied := false })).set (j+1)
          ({ b with occupantId := "", isOccupied := false })) }) := by
  have hjlt : j < lvl.slotList.length := (List.getElem?_eq_some.mp hja).1
  have hjlt2 : j + 1 < lvl.slotList.length := (List.getElem?_eq_some.mp hjb).1
  refine Prod.ext ?_ ?_
  · show (lvl.removeMachine id).1 = true
    unfold Level.removeMachine
    simp only [List.any_eq_true]
    exact ⟨a, List.getElem?_mem hja, by simp [hocca, hida]⟩
  · show (lvl.removeMachine id).2 = _
    have hsl : (lvl.removeMachine id).2.slotList =
        (lvl.slotList.set j { a with occupantId := "", isOccupied := false }).set (j+1)
          { b with occupantId := "", isOccupied := false } := by
      apply List.ext_getElem?
      intro p
      rw [removeMachine_snd_getElem]
      by_cases hp2 : p = j + 1
      · subst hp2
        rw [List.getElem?_set_self (by simpa using hjlt2), hjb]
        simp [hoccb, hidb]
      · rw [List.getElem?_set_ne (fun h => hp2 h.symm)]
        by_cases hp : p = j
        · subst hp
          rw [List.getElem?_set_self hjlt, hja]
          simp [hocca, hida]
        · rw [List.getElem?_set_ne (fun h => hp h.symm)]
          cases hs' : lvl.slotList[p]? with
          | none => rfl
          | some s' =>
            have hc := hothers p s' hs' hp hp2
            show some (if (s'.isOccupied && s'.occupantId == id) = true then
              { s' with occupantId := "", isOccupied := false } else s') = some s'
            rw [hc]
            simp
    have hli : (lvl.removeMachine id).2.levelIndex = lvl.levelIndex := by
      unfold Level.removeMachine
      rfl
    cases hr : (lvl.removeMachine id).2 with
    | mk li sl =>
      rw [hr] at hsl hli
      simp only at hsl hli
      simp [hsl, hli]

lemma freeCount_set_occupy {sl : List Slot} {j : Nat} {s : Slot}
    (hj : sl[j]? = some s) (hfree : s.isOccupied = false) {v : Slot}
    (hv : v.isOccupied = true) :
    (sl.set j v).countP (fun s => !s.isOccupied) + 1 = sl.countP (fun s => !s.isOccupied) := by
  have := countP_set_add (fun s => !s.isOccupied) sl j v s hj
  simp [hfree, hv] at this
  omega

lemma freeCount_set_vacate {sl : List Slot} {j : Nat} {s : Slot}
    (hj : sl[j]? = some s) (hocc : s.isOccupied = true) {v : Slot}
    (hv : v.isOccupied = false) :
    (sl.set j v).countP (fun s => !s.isOccupied) = sl.countP (fun s => !s.isOccupied) + 1 := by
  have := countP_set_add (fun s => !s.isOccupied) sl j v s hj
  simp [hocc, hv] at this
  omega

lemma levelWF_update {N : Nat} {lvl : Level} (hwf : Level.WF N lvl) (sl' : List Slot)
    (hlen : sl'.length = lvl.slotList.length)
    (hpt : ∀ (p : Nat) (s' : Slot), sl'[p]? = some s' → ∃ s, lvl.slotList[p]? = some s ∧
      s'.slotIndex = s.slotIndex ∧ (s'.isOccupied = false → s'.occupantId = "")) :
    Level.WF N { lvl with slotList := sl' } := by
  obtain ⟨h1, h2, h3⟩ := hwf
  refine ⟨by simp [hlen, h1], ?_, ?_⟩
  · intro j s' hs'
    obtain ⟨s, hs, hidx, _⟩ := hpt j s' hs'
    rw [hidx]
    exact h2 j s hs
  · intro s' hmem hfree
    obtain ⟨p, hp⟩ := List.mem_iff_getElem?.mp hmem
    obtain ⟨s, hs, _, hclean⟩ := hpt p s' hp
    exact hclean hfree

lemma tryStore_eq_some {lvl r : Level} {m : Machine} {si : List Nat}
    (hsi : lvl.spotsAvailable m = si) (hne : si.isEmpty = false)
    (hassign : lvl.assignMachine m si = (true, r)) :
    lvl.tryStore m = some (r, si) := by
  unfold Level.tryStore
  simp only [hsi, hne, hassign]
  simp

lemma tryStore_single {N : Nat} {lvl lvl' : Level} {m : Machine} {si : List Nat}
    (hwf : Level.WF N lvl) (hm : m.slotsNeeded = 1)
    (h : lvl.tryStore m = some (lvl', si)) :
    ∃ (j : Nat) (s : Slot), lvl.slotList[j]? = some s ∧ s.isOccupied = false ∧ si = [j] ∧
      (∀ (p : Nat) (s' : Slot), p < j → lvl.slotList[p]? = some s' → s'.isOccupied = true) ∧
      lvl' = { lvl with slotList := (lvl.slotList.set j
        ({ s with occupantId := m.identifier, isOccupied := true })) } := by
  by_cases hne : firstFreeSlot lvl.slotList = []
  · unfold Level.tryStore at h
    rw [spotsAvailable_one hm] at h
    simp [hne] at h
  · obtain ⟨j, s, hj, hfree, hres, hmin⟩ := firstFreeSlot_spec lvl.slotList hne
    have hidx : s.slotIndex = j := hwf.2.1 j s hj
    subst hidx
    have hts := tryStore_eq_some (m := m)
      (by rw [spotsAvailable_one hm]; exact hres) (by simp)
      (assignMachine_single hj hfree)
    rw [hts] at h
    simp only [Option.some.injEq, Prod.mk.injEq] at h
    exact ⟨s.slotIndex, s, hj, hfree, h.2.symm, hmin, h.1.symm⟩

lemma tryStore_pair {N : Nat} {lvl lvl' : Level} {m : Machine} {si : List Nat}
    (hwf : Level.WF N lvl) (hm : m.slotsNeeded = 2)
    (h : lvl.tryStore m = some (lvl', si)) :
    ∃ (j : Nat) (a b : Slot), lvl.slotList[j]? = some a ∧ lvl.slotList[j+1]? = some b ∧
      a.isOccupied = false ∧ b.isOccupied = false ∧ si = [j, j+1] ∧
      (∀ (p : Nat) (a' b' : Slot), p < j → lvl.slotList[p]? = some a' →
        lvl.slotList[p+1]? = some b' → a'.isOccupied = true ∨ b'.isOccupied = true) ∧
      lvl' = { lvl with slotList :=
        ((lvl.slotList.set j ({ a with occupantId := m.identifier, isOccupied := true })).set
          (j+1) ({ b with occupantId := m.identifier, isOccupied := true })) } := by
  by_cases hne : firstFreePair lvl.slotList = []
  · unfold Level.tryStore at h
    rw [spotsAvailable_two hm] at h
    simp [hne] at h
  · obtain ⟨j, a, b, hja, hjb, ha, hb, hres, hmin⟩ := firstFreePair_spec lvl.slotList hne
    have hidxa : a.slotIndex = j := hwf.2.1 j a hja
    have hidxb : b.slotIndex = j + 1 := hwf.2.1 (j+1) b hjb
    subst hidxa
    have hsi2 : lvl.spotsAvailable m = [a.slotIndex, b.slotIndex] := by
      rw [spotsAvailable_two hm]; exact hres
    have hassign2 : lvl.assignMachine m [a.slotIndex, b.slotIndex] =
        (true, { lvl with slotList :=
          ((lvl.slotList.set a.slotIndex
            ({ a with occupantId := m.identifier, isOccupied := true })).set
            (a.slotIndex + 1) ({ b with occupantId := m.identifier, isOccupied := true })) }) := by
      have hlist : [a.slotIndex, b.slotIndex] = [a.slotIndex, a.slotIndex + 1] := by
        rw [hidxb]
      rw [hlist]
      exact assignMachine_pair hja hjb ha hb
    have hts := tryStore_eq_some hsi2 (by simp) hassign2
    rw [hts] at h
    simp only [Option.some.injEq, Prod.mk.injEq] at h
    have h2 := h.2.symm
    rw [hidxb] at h2
    exact ⟨a.slotIndex, a, b, hja, hjb, ha, hb, h2, hmin, h.1.symm⟩

lemma tryStore_eq_none_iff {N : Nat} {lvl : Level} {m : Machine} (hwf : Level.WF N lvl) :
    lvl.tryStore m = none ↔ lvl.spotsAvailable m = [] := by
  constructor
  · intro h
    by_contra hne
    rcases slotsNeeded_cases m with hm | hm
    · rw [spotsAvailable_one hm] at hne
      obtain ⟨j, s, hj, hfree, hres, _⟩ := firstFreeSlot_spec lvl.slotList hne
      have hidx : s.slotIndex = j := hwf.2.1 j s hj
      subst hidx
      have hts := tryStore_eq_some (m := m)
        (by rw [spotsAvailable_one hm]; exact hres) (by simp)
        (assignMachine_single hj hfree)
      rw [hts] at h
      simp at h
    · rw [spotsAvailable_two hm] at hne
      obtain ⟨j, a, b, hja, hjb, ha, hb, hres, _⟩ := firstFreePair_spec lvl.slotList hne
      have hidxa : a.slotIndex = j := hwf.2.1 j a hja
      have hidxb : b.slotIndex = j + 1 := hwf.2.1 (j+1) b hjb
      subst hidxa
      have hsi2 : lvl.spotsAvailable m = [a.slotIndex, b.slotIndex] := by
        rw [spotsAvailable_two hm]; exact hres
      have hassign2 : lvl.assignMachine m [a.slotIndex, b.slotIndex] =
          (true, { lvl with slotList :=
            ((lvl.slotList.set a.slotIndex
              ({ a with occupantId := m.identifier, isOccupied := true })).set
              (a.slotIndex + 1) ({ b with occupantId := m.identifier, isOccupied := true })) }) := by
        have hlist : [a.slotIndex, b.slotIndex] = [a.slotIndex, a.slotIndex + 1] := by
          rw [hidxb]
        rw [hlist]
        exact assignMachine_pair hja hjb ha hb
      have hts := tryStore_eq_some hsi2 (by simp) hassign2
      rw [hts] at h
      simp at h
  · intro h
    unfold Level.tryStore
    rw [h]
    rfl

/-! ### The level loop of `storeMachine` -/

lemma storeLoop_eq_none_iff (m : Machine) (levels : List Level) :
    storeLoop m levels = none ↔ ∀ lvl ∈ levels, lvl.tryStore m = none := by
  induction levels with
  | nil => simp [storeLoop]
  | cons lvl rest ih =>
    unfold storeLoop
    cases ht : lvl.tryStore m with
    | some r => simp [ht]
    | none =>
      cases hr : storeLoop m rest with
      | some r' =>
        simp only [List.mem_cons]
        constructor
        · intro hcon
          obtain ⟨rest', li, si⟩ := r'
          simp at hcon
        · intro hall
          have : storeLoop m rest = none := ih.mpr fun l hl => hall l (Or.inr hl)
          rw [this] at hr
          simp at hr
      | none =>
        simp only [List.mem_cons, true_iff]
        intro l hl
        rcases hl with rfl | hl
        · exact ht
        · exact (ih.mp hr) l hl

lemma storeLoop_spec {m : Machine} {levels : List Level}
    {res : List Level × Nat × List Nat} (h : storeLoop m levels = some res) :
    ∃ (k : Nat) (lvl lvl' : Level) (si : List Nat), levels[k]? = some lvl ∧
      (∀ (i : Nat) (l0 : Level), i < k → levels[i]? = some l0 → l0.tryStore m = none) ∧
      lvl.tryStore m = some (lvl', si) ∧
      res = (levels.set k lvl', lvl.levelIndex, si) := by
  induction levels generalizing res with
  | nil => simp [storeLoop] at h
  | cons lvl rest ih =>
    unfold storeLoop at h
    cases ht : lvl.tryStore m with
    | some r =>
      obtain ⟨lvl', si⟩ := r
      rw [ht] at h
      simp only [Option.some.injEq] at h
      exact ⟨0, lvl, lvl', si, by simp, fun i l0 hi => by omega, ht, by simp [← h]⟩
    | none =>
      rw [ht] at h
      cases hr : storeLoop m rest with
      | none => rw [hr] at h; simp at h
      | some r' =>
        rw [hr] at h
        obtain ⟨rest', li, si⟩ := r'
        simp only [Option.some.injEq] at h
        obtain ⟨k, l1, l1', si', hk, hbefore, htry, hres⟩ := ih hr
        simp only [Prod.mk.injEq] at hres
        refine ⟨k + 1, l1, l1', si', by simpa using hk, ?_, htry, ?_⟩
        · intro i l0 hi hl0
          cases i with
          | zero =>
            simp only [List.getElem?_cons_zero, Option.some.injEq] at hl0
            exact hl0 ▸ ht
          | succ q =>
            rw [List.getElem?_cons_succ] at hl0
            exact hbefore q l0 (by omega) hl0
        · rw [← h, hres.1, hres.2.1, hres.2.2]
          simp

/-! ### Evaluation lemmas for the garage operations -/

lemma storeMachine_parked {g : Garage} {m : Machine}
    (hid : (g.machineLocations.lookup m.identifier).isSome = true) :
    g.storeMachine m = (false, g) := by
  unfold Garage.storeMachine
  rw [if_pos hid]

lemma storeMachine_noSpace {g : Garage} {m : Machine}
    (hid : g.machineLocations.lookup m.identifier = none)
    (hloop : storeLoop m g.levels = none) :
    g.storeMachine m = (false, g) := by
  unfold Garage.storeMachine
  simp only [hid, hloop, Option.isSome_none, Bool.false_eq_true, if_false]

lemma storeMachine_eq_some {g : Garage} {m : Machine} {levels' : List Level} {li : Nat}
    {si : List Nat} (hid : g.machineLocations.lookup m.identifier = none)
    (hloop : storeLoop m g.levels = some (levels', li, si)) :
    g.storeMachine m = (true, ⟨levels',
      (m.identifier, (li, si)) :: g.machineLocations,
      (m.identifier, m) :: g.machineCatalog⟩) := by
  unfold Garage.storeMachine
  simp only [hid, hloop, Option.isSome_none, Bool.false_eq_true, if_false]

lemma unparkMachine_notFound {g : Garage} {id : String}
    (h : g.machineLocations.lookup id = none) :
    g.unparkMachine id = (false, g) := by
  unfold Garage.unparkMachine
  simp only [h]

lemma unparkMachine_eq {g : Garage} {id : String} {li : Nat} {slots : List Nat}
    {lvl lvlR : Level} (hlook : g.machineLocations.lookup id = some (li, slots))
    (hk : g.levels[li]? = some lvl) (hrm : lvl.removeMachine id = (true, lvlR)) :
    g.unparkMachine id = (true, ⟨g.levels.set li lvlR,
      g.machineLocations.eraseP (fun p => p.1 == id),
      g.machineCatalog.eraseP (fun p => p.1 == id)⟩) := by
  unfold Garage.unparkMachine
  simp only [hlook, hk, hrm]
  simp

/-! ### Garage well-formedness -/

/-- Everything that holds of a reachable garage state: levels sit at
their own index and are well-formed, the two maps have unique keys and
the same key set, every location record points at occupied slots of the
right shape, every occupied slot is claimed by exactly its occupant's
record, and the free/parked slot counts balance. -/
structure Garage.WF (L N : Nat) (g : Garage) : Prop where
  levels_len : g.levels.length = L
  level_idx : ∀ (i : Nat) (lvl : Level), g.levels[i]? = some lvl → lvl.levelIndex = i
  level_wf : ∀ lvl ∈ g.levels, Level.WF N lvl
  loc_nodup : (g.machineLocations.map Prod.fst).Nodup
  cat_nodup : (g.machineCatalog.map Prod.fst).Nodup
  loc_cat : ∀ id : String,
    (g.machineLocations.lookup id).isSome = (g.machineCatalog.lookup id).isSome
  loc_shape : ∀ (id : String) (li : Nat) (slots : List Nat),
    g.machineLocations.lookup id = some (li, slots) →
    ∃ m : Machine, g.machineCatalog.lookup id = some m ∧ m.identifier = id ∧
      ((m.slotsNeeded = 1 ∧ ∃ j : Nat, slots = [j]) ∨
       (m.slotsNeeded = 2 ∧ ∃ j : Nat, slots = [j, j + 1]))
  loc_occ : ∀ (id : String) (li : Nat) (slots : List Nat),
    g.machineLocations.lookup id = some (li, slots) →
    li < g.levels.length ∧
    ∀ p ∈ slots, ∃ s : Slot, g.getSlot li p = some s ∧ s.isOccupied = true ∧
      s.occupantId = id
  occ_loc : ∀ (li p : Nat) (s : Slot), g.getSlot li p = some s → s.isOccupied = true →
    ∃ slots : List Nat, g.machineLocations.lookup s.occupantId = some (li, slots) ∧
      p ∈ slots
  sum_inv : g.freeTotal + g.parkedTotal = L * N

lemma getSlot_mk (levels : List Level) (locs : List (String × (Nat × List Nat)))
    (cat : List (String × Machine)) (li si : Nat) :
    (Garage.mk levels locs cat).getSlot li si =
      match levels[li]? with
      | some lvl => lvl.slotList[si]?
      | none => none := rfl

lemma wf_mkGarage (L N : Nat) : Garage.WF L N (Garage.mkGarage L N) := by
  have hlvl : ∀ i : Nat, i < L →
      (Garage.mkGarage L N).levels[i]? = some (Level.mkLevel i N) := by
    intro i hi
    unfold Garage.mkGarage
    simp only [List.getElem?_map, List.getElem?_range hi, Option.map_some']
  refine ⟨?_, ?_, ?_, by simp [Garage.mkGarage], by simp [Garage.mkGarage], ?_, ?_, ?_, ?_, ?_⟩
  · simp [Garage.mkGarage]
  · intro i lvl h
    have hi : i < L := by
      by_contra hge
      rw [List.getElem?_eq_none (by simp [Garage.mkGarage]; omega)] at h
      simp at h
    rw [hlvl i hi] at h
    simp only [Option.some.injEq] at h
    rw [← h]
    rfl
  · intro lvl hmem
    unfold Garage.mkGarage at hmem
    simp only [List.mem_map, List.mem_range] at hmem
    obtain ⟨i, _, rfl⟩ := hmem
    refine ⟨by simp [Level.mkLevel], ?_, ?_⟩
    · intro j s hs
      unfold Level.mkLevel at hs
      simp only [List.getElem?_map] at hs
      by_cases hjN : j < N
      · rw [List.getElem?_range hjN] at hs
        simp only [Option.map_some', Option.some.injEq] at hs
        rw [← hs]
      · rw [List.getElem?_eq_none (by simpa using Nat.le_of_not_lt hjN)] at hs
        simp at hs
    · intro s hmem _
      unfold Level.mkLevel at hmem
      simp only [List.mem_map, List.mem_range] at hmem
      obtain ⟨v, _, rfl⟩ := hmem
      rfl
  · intro id
    simp [Garage.mkGarage]
  · intro id li slots h
    simp [Garage.mkGarage, List.lookup] at h
  · intro id li slots h
    simp [Garage.mkGarage, List.lookup] at h
  · intro li p s h hocc
    rw [getSlot_mk] at h
    have hli : li < L := by
      by_contra hge
      rw [show (Garage.mkGarage L N).levels = (List.range L).map fun i =>
        Level.mkLevel i N from rfl] at h
      rw [List.getElem?_eq_none (by simpa using Nat.le_of_not_lt hge)] at h
      simp at h
    rw [hlvl li hli] at h
    simp only at h
    unfold Level.mkLevel at h
    simp only [List.getElem?_map] at h
    by_cases hpN : p < N
    · rw [List.getElem?_range hpN] at h
      simp only [Option.map_some', Option.some.injEq] at h
      rw [← h] at hocc
      simp at hocc
    · rw [List.getElem?_eq_none (by simpa using Nat.le_of_not_lt hpN)] at h
      simp at h
  · show (Garage.mkGarage L N).freeTotal + (Garage.mkGarage L N).parkedTotal = L * N
    unfold Garage.freeTotal Garage.parkedTotal Garage.mkGarage
    simp only [List.map_map, List.map_nil, List.sum_nil, Nat.add_zero]
    have hone : ∀ i ∈ List.range L,
        (Level.freeSlotsCount ∘ fun i => Level.mkLevel i N) i = N := by
      intro i _
      simp only [Function.comp_apply]
      unfold Level.freeSlotsCount Level.mkLevel
      simp only
      have hall : ∀ s ∈ (List.range N).map (fun v =>
          ({ levelIndex := i, slotIndex := v, isOccupied := false, occupantId := "" } : Slot)),
          (!s.isOccupied) = true := by
        intro s hs
        simp only [List.mem_map, List.mem_range] at hs
        obtain ⟨v, _, rfl⟩ := hs
        rfl
      rw [List.countP_eq_length.mpr hall]
      simp
    rw [List.map_congr_left hone]
    have hsum : ∀ K : Nat, (List.map (fun _ => N) (List.range K)).sum = K * N := by
      intro K
      induction K with
      | zero => simp
      | succ n ih =>
        rw [List.range_succ]
        simp only [List.map_append, List.sum_append, ih, List.map_cons, List.map_nil,
          List.sum_cons, List.sum_nil]
        ring
    exact hsum L

lemma Garage.getSlot_eq {g : Garage} {li : Nat} {lvl : Level}
    (h : g.levels[li]? = some lvl) (p : Nat) : g.getSlot li p = lvl.slotList[p]? := by
  unfold Garage.getSlot
  rw [h]

lemma getSlot_set_ne {g : Garage} {k : Nat} {lvl' : Level}
    {locs : List (String × (Nat × List Nat))} {cat : List (String × Machine)} {li p : Nat}
    (h : li ≠ k) :
    (Garage.mk (g.levels.set k lvl') locs cat).getSlot li p = g.getSlot li p := by
  unfold Garage.getSlot
  rw [List.getElem?_set_ne (fun hh => h hh.symm)]

lemma wf_store_core {L N : Nat} {g : Garage} (hwf : Garage.WF L N g) (m : Machine)
    {k : Nat} {lvl lvl' : Level} {si : List Nat}
    (hk : g.levels[k]? = some lvl)
    (hid : g.machineLocations.lookup m.identifier = none)
    (hshape : (m.slotsNeeded = 1 ∧ ∃ j : Nat, si = [j]) ∨
              (m.slotsNeeded = 2 ∧ ∃ j : Nat, si = [j, j + 1]))
    (hlvlidx : lvl'.levelIndex = lvl.levelIndex)
    (hlen : lvl'.slotList.length = lvl.slotList.length)
    (hpt : ∀ p : Nat, lvl'.slotList[p]? = if p ∈ si then
        (lvl.slotList[p]?).map
          (fun s => { s with occupantId := m.identifier, isOccupied := true })
      else lvl.slotList[p]?)
    (hfree : ∀ p ∈ si, ∃ s : Slot, lvl.slotList[p]? = some s ∧ s.isOccupied = false)
    (hcount : lvl'.freeSlotsCount + si.length = lvl.freeSlotsCount) :
    Garage.WF L N ⟨g.levels.set k lvl',
      (m.identifier, (k, si)) :: g.machineLocations,
      (m.identifier, m) :: g.machineCatalog⟩ := by
  have hklt : k < g.levels.length := (List.getElem?_eq_some.mp hk).1
  have hkidx : lvl.levelIndex = k := hwf.level_idx k lvl hk
  have hmem : lvl ∈ g.levels := List.getElem?_mem hk
  have hlwf := hwf.level_wf lvl hmem
  have hcatnone : g.machineCatalog.lookup m.identifier = none := by
    have h1 := hwf.loc_cat m.identifier
    rw [hid] at h1
    cases hcl : g.machineCatalog.lookup m.identifier with
    | none => rfl
    | some v => rw [hcl] at h1; simp at h1
  have hfreshloc : m.identifier ∉ g.machineLocations.map Prod.fst :=
    (lookup_eq_none_iff _ _).mp hid
  have hfreshcat : m.identifier ∉ g.machineCatalog.map Prod.fst :=
    (lookup_eq_none_iff _ _).mp hcatnone
  have hsetk : (g.levels.set k lvl')[k]? = some lvl' := List.getElem?_set_self hklt
  refine ⟨?_, ?_, ?_, ?_, ?_, ?_, ?_, ?_, ?_, ?_⟩
  · simpa using hwf.levels_len
  · intro i lvl0 h0
    by_cases hik : i = k
    · subst hik
      rw [hsetk] at h0
      simp only [Option.some.injEq] at h0
      rw [← h0, hlvlidx, hkidx]
    · rw [List.getElem?_set_ne (fun h => hik h.symm)] at h0
      exact hwf.level_idx i lvl0 h0
  · intro lvl0 hmem0
    rcases List.mem_or_eq_of_mem_set hmem0 with hold | rfl
    · exact hwf.level_wf lvl0 hold
    · refine ⟨by rw [hlen]; exact hlwf.1, ?_, ?_⟩
      · intro j s hs
        by_cases hj : j ∈ si
        · obtain ⟨s0, hs0, _⟩ := hfree j hj
          have h2 : some s =
              some ({ s0 with occupantId := m.identifier, isOccupied := true } : Slot) := by
            rw [← hs, hpt j, if_pos hj, hs0]
            rfl
          simp only [Option.some.injEq] at h2
          rw [h2]
          show s0.slotIndex = j
          exact hlwf.2.1 j s0 hs0
        · have h3 := hpt j
          rw [if_neg hj] at h3
          rw [hs] at h3
          exact hlwf.2.1 j s h3.symm
      · intro s hsmem hsfree
        obtain ⟨p, hp⟩ := List.mem_iff_getElem?.mp hsmem
        by_cases hpsi : p ∈ si
        · obtain ⟨s0, hs0, _⟩ := hfree p hpsi
          have h2 : some s =
              some ({ s0 with occupantId := m.identifier, isOccupied := true } : Slot) := by
            rw [← hp, hpt p, if_pos hpsi, hs0]
            rfl
          simp only [Option.some.injEq] at h2
          rw [h2] at hsfree
          simp at hsfree
        · have h3 := hpt p
          rw [if_neg hpsi] at h3
          rw [hp] at h3
          exact hlwf.2.2 s (List.getElem?_mem h3.symm) hsfree
  · simp only [List.map_cons]
    exact List.nodup_cons.mpr ⟨hfreshloc, hwf.loc_nodup⟩
  · simp only [List.map_cons]
    exact List.nodup_cons.mpr ⟨hfreshcat, hwf.cat_nodup⟩
  · intro id0
    show (((m.identifier, (k, si)) :: g.machineLocations).lookup id0).isSome =
      (((m.identifier, m) :: g.machineCatalog).lookup id0).isSome
    rw [lookup_cons, lookup_cons]
    by_cases h0 : id0 = m.identifier
    · simp [h0]
    · rw [if_neg h0, if_neg h0]
      exact hwf.loc_cat id0
  · intro id0 li0 slots0 hlook0
    show ∃ m0 : Machine, ((m.identifier, m) :: g.machineCatalog).lookup id0 = some m0 ∧ _
    rw [lookup_cons] at hlook0
    by_cases h0 : id0 = m.identifier
    · rw [if_pos h0] at hlook0
      simp only [Option.some.injEq, Prod.mk.injEq] at hlook0
      refine ⟨m, by rw [lookup_cons, if_pos h0], h0.symm, ?_⟩
      rw [← hlook0.2]
      exact hshape
    · rw [if_neg h0] at hlook0
      obtain ⟨m0, hcat0, hmid0, hsh0⟩ := hwf.loc_shape id0 li0 slots0 hlook0
      exact ⟨m0, by rw [lookup_cons, if_neg h0]; exact hcat0, hmid0, hsh0⟩
  · intro id0 li0 slots0 hlook0
    rw [lookup_cons] at hlook0
    by_cases h0 : id0 = m.identifier
    · rw [if_pos h0] at hlook0
      simp only [Option.some.injEq, Prod.mk.injEq] at hlook0
      obtain ⟨hk0, hsl0⟩ := hlook0
      subst hk0
      refine ⟨by simpa using hklt, ?_⟩
      intro p hp
      rw [← hsl0] at hp
      obtain ⟨s0, hs0, hs0free⟩ := hfree p hp
      refine ⟨{ s0 with occupantId := m.identifier, isOccupied := true }, ?_, rfl, h0.symm⟩
      rw [Garage.getSlot_eq hsetk p, hpt p, if_pos hp, hs0]
      rfl
    · rw [if_neg h0] at hlook0
      obtain ⟨hli0, hocc0⟩ := hwf.loc_occ id0 li0 slots0 hlook0
      refine ⟨by simpa using hli0, ?_⟩
      intro p hp
      obtain ⟨s0, hgs0, hso, hsid⟩ := hocc0 p hp
      by_cases hlik : li0 = k
      · subst hlik
        have hold : lvl.slotList[p]? = some s0 := by
          rw [Garage.getSlot_eq hk p] at hgs0
          exact hgs0
        have hpnot : p ∉ si := by
          intro hpsi
          obtain ⟨s1, hs1, hs1free⟩ := hfree p hpsi
          rw [hold] at hs1
          simp only [Option.some.injEq] at hs1
          rw [← hs1, hso] at hs1free
          simp at hs1free
        refine ⟨s0, ?_, hso, hsid⟩
        rw [Garage.getSlot_eq hsetk p, hpt p, if_neg hpnot]
        exact hold
      · refine ⟨s0, ?_, hso, hsid⟩
        rw [getSlot_set_ne hlik]
        exact hgs0
  · intro li0 p s hget hocc0
    by_cases hlik : li0 = k
    · subst hlik
      rw [Garage.getSlot_eq hsetk p, hpt p] at hget
      by_cases hpsi : p ∈ si
      · rw [if_pos hpsi] at hget
        obtain ⟨s0, hs0, _⟩ := hfree p hpsi
        rw [hs0] at hget
        simp only [Option.map_some', Option.some.injEq] at hget
        refine ⟨si, ?_, hpsi⟩
        rw [← hget]
        show ((m.identifier, (li0, si)) :: g.machineLocations).lookup m.identifier =
          some (li0, si)
        rw [lookup_cons]
        simp
      · rw [if_neg hpsi] at hget
        obtain ⟨slots0, hlook0, hp0⟩ := hwf.occ_loc li0 p s
          (by rw [Garage.getSlot_eq hk p]; exact hget) hocc0
        have hne : s.occupantId ≠ m.identifier := by
          intro heq
          rw [heq, hid] at hlook0
          exact absurd hlook0 (by simp)
        refine ⟨slots0, ?_, hp0⟩
        show ((m.identifier, (li0, si)) :: g.machineLocations).lookup s.occupantId = _
        rw [lookup_cons, if_neg hne]
        exact hlook0
    · rw [getSlot_set_ne hlik] at hget
      obtain ⟨slots0, hlook0, hp0⟩ := hwf.occ_loc li0 p s hget hocc0
      have hne : s.occupantId ≠ m.identifier := by
        intro heq
        rw [heq, hid] at hlook0
        exact absurd hlook0 (by simp)
      refine ⟨slots0, ?_, hp0⟩
      show ((m.identifier, (k, si)) :: g.machineLocations).lookup s.occupantId = _
      rw [lookup_cons, if_neg hne]
      exact hlook0
  · unfold Garage.freeTotal Garage.parkedTotal
    simp only [List.map_cons, List.sum_cons]
    have h1 := sum_map_set_add Level.freeSlotsCount g.levels k lvl' lvl hk
    have h2 : si.length = m.slotsNeeded := by
      rcases hshape with ⟨hm1, j, rfl⟩ | ⟨hm2, j, rfl⟩
      · simp [hm1]
      · simp [hm2]
    have h3 := hwf.sum_inv
    unfold Garage.freeTotal Garage.parkedTotal at h3
    omega

lemma wf_store {L N : Nat} {g : Garage} (hwf : Garage.WF L N g) (m : Machine) :
    Garage.WF L N (g.storeMachine m).2 := by
  by_cases hid : (g.machineLocations.lookup m.identifier).isSome
  · rw [storeMachine_parked hid]
    exact hwf
  · have hid' : g.machineLocations.lookup m.identifier = none :=
      Option.not_isSome_iff_eq_none.mp hid
    cases hloop : storeLoop m g.levels with
    | none =>
      rw [storeMachine_noSpace hid' hloop]
      exact hwf
    | some res =>
      obtain ⟨levels', li, si⟩ := res
      rw [storeMachine_eq_some hid' hloop]
      obtain ⟨k, lvl, lvl', si0, hk, hbefore, htry, hres⟩ := storeLoop_spec hloop
      simp only [Prod.mk.injEq] at hres
      obtain ⟨hlev, hli, hsi⟩ := hres
      have hkidx : lvl.levelIndex = k := hwf.level_idx k lvl hk
      have hmem : lvl ∈ g.levels := List.getElem?_mem hk
      have hlwf := hwf.level_wf lvl hmem
      show Garage.WF L N ⟨levels', (m.identifier, (li, si)) :: g.machineLocations,
        (m.identifier, m) :: g.machineCatalog⟩
      rw [hlev, hli, hkidx, hsi]
      rcases slotsNeeded_cases m with hm | hm
      · obtain ⟨j, s, hj, hfree, hsi0, hmin, hlvl'⟩ := tryStore_single hlwf hm htry
        rw [hsi0]
        have hjlt : j < lvl.slotList.length := (List.getElem?_eq_some.mp hj).1
        refine wf_store_core hwf m hk hid' (Or.inl ⟨hm, j, rfl⟩) ?_ ?_ ?_ ?_ ?_
        · rw [hlvl']
        · rw [hlvl']
          simp
        · intro p
          rw [hlvl']
          show (lvl.slotList.set j
            ({ s with occupantId := m.identifier, isOccupied := true }))[p]? = _
          by_cases hpj : p = j
          · subst hpj
            rw [if_pos (List.mem_singleton.mpr rfl)]
            rw [List.getElem?_set_self hjlt, hj]
            rfl
          · rw [if_neg (by simpa using hpj)]
            rw [List.getElem?_set_ne (fun h => hpj h.symm)]
        · intro p hp
          simp only [List.mem_singleton] at hp
          subst hp
          exact ⟨s, hj, hfree⟩
        · rw [hlvl']
          show (lvl.slotList.set j
              ({ s with occupantId := m.identifier, isOccupied := true })).countP
              (fun s => !s.isOccupied) + 1 =
            lvl.slotList.countP (fun s => !s.isOccupied)
          exact freeCount_set_occupy hj hfree
            (show ({ s with occupantId := m.identifier, isOccupied := true } : Slot).isOccupied
              = true from rfl)
      · obtain ⟨j, a, b, hja, hjb, ha, hb, hsi0, hmin, hlvl'⟩ := tryStore_pair hlwf hm htry
        rw [hsi0]
        have hjlt : j < lvl.slotList.length := (List.getElem?_eq_some.mp hja).1
        have hjlt2 : j + 1 < lvl.slotList.length := (List.getElem?_eq_some.mp hjb).1
        refine wf_store_core hwf m hk hid' (Or.inr ⟨hm, j, rfl⟩) ?_ ?_ ?_ ?_ ?_
        · rw [hlvl']
        · rw [hlvl']
          simp
        · intro p
          rw [hlvl']
          show ((lvl.slotList.set j
              ({ a with occupantId := m.identifier, isOccupied := true })).set (j + 1)
              ({ b with occupantId := m.identifier, isOccupied := true }))[p]? = _
          by_cases hp2 : p = j + 1
          · subst hp2
            rw [if_pos (by simp)]
            rw [List.getElem?_set_self (by simpa using hjlt2), hjb]
            rfl
          · by_cases hp1 : p = j
            · subst hp1
              rw [if_pos (by simp)]
              rw [List.getElem?_set_ne (fun h => hp2 h.symm),
                List.getElem?_set_self hjlt, hja]
              rfl
            · rw [if_neg (by simp [hp1, hp2])]
              rw [List.getElem?_set_ne (fun h => hp2 h.symm),
                List.getElem?_set_ne (fun h => hp1 h.symm)]
        · intro p hp
          simp only [List.mem_cons, List.mem_singleton, List.not_mem_nil, or_false] at hp
          rcases hp with rfl | rfl
          · exact ⟨a, hja, ha⟩
          · exact ⟨b, hjb, hb⟩
        · rw [hlvl']
          show ((lvl.slotList.set j
              ({ a with occupantId := m.identifier, isOccupied := true })).set (j + 1)
              ({ b with occupantId := m.identifier, isOccupied := true })).countP
              (fun s => !s.isOccupied) + 2 =
            lvl.slotList.countP (fun s => !s.isOccupied)
          have h1 : (lvl.slotList.set j
              ({ a with occupantId := m.identifier, isOccupied := true }))[j + 1]? =
              some b := by
            rw [List.getElem?_set_ne (by omega), hjb]
          have h2 := freeCount_set_occupy h1 hb
            (show ({ b with occupantId := m.identifier, isOccupied := true } : Slot).isOccupied
              = true from rfl)
          have h3 := freeCount_set_occupy hja ha
            (show ({ a with occupantId := m.identifier, isOccupied := true } : Slot).isOccupied
              = true from rfl)
          omega

lemma sum_slots_eraseP (l : List (String × Machine)) (id : String) (m0 : Machine)
    (h : l.lookup id = some m0) :
    ((l.eraseP fun p => p.1 == id).map fun p => p.2.slotsNeeded).sum + m0.slotsNeeded =
      (l.map fun p => p.2.slotsNeeded).sum := by
  induction l with
  | nil => simp [List.lookup] at h
  | cons q rest ih =>
    obtain ⟨k, v⟩ := q
    rw [lookup_cons] at h
    by_cases hk : id = k
    · rw [if_pos hk] at h
      simp only [Option.some.injEq] at h
      subst h
      rw [List.eraseP_cons_of_pos (by simp [hk])]
      simp only [List.map_cons, List.sum_cons]
      omega
    · rw [if_neg hk] at h
      rw [List.eraseP_cons_of_neg
        (by simp only [beq_iff_eq]; exact fun hh => hk hh.symm)]
      simp only [List.map_cons, List.sum_cons]
      have := ih h
      omega

lemma wf_unpark_core {L N : Nat} {g : Garage} (hwf : Garage.WF L N g) (id : String)
    {li : Nat} {slots : List Nat} {lvl lvlR : Level}
    (hlook : g.machineLocations.lookup id = some (li, slots))
    (hk : g.levels[li]? = some lvl)
    (hlvlidx : lvlR.levelIndex = lvl.levelIndex)
    (hlen : lvlR.slotList.length = lvl.slotList.length)
    (hpt : ∀ p : Nat, lvlR.slotList[p]? = if p ∈ slots then
        (lvl.slotList[p]?).map (fun s => { s with occupantId := "", isOccupied := false })
      else lvl.slotList[p]?)
    (hcount : lvlR.freeSlotsCount = lvl.freeSlotsCount + slots.length) :
    Garage.WF L N ⟨g.levels.set li lvlR,
      g.machineLocations.eraseP (fun p => p.1 == id),
      g.machineCatalog.eraseP (fun p => p.1 == id)⟩ := by
  have hlilt : li < g.levels.length := (hwf.loc_occ id li slots hlook).1
  have hoccs := (hwf.loc_occ id li slots hlook).2
  have hliidx : lvl.levelIndex = li := hwf.level_idx li lvl hk
  have hmem : lvl ∈ g.levels := List.getElem?_mem hk
  have hlwf := hwf.level_wf lvl hmem
  have hsetli : (g.levels.set li lvlR)[li]? = some lvlR := List.getElem?_set_self hlilt
  obtain ⟨m0, hcat0, hm0id, hsh0⟩ := hwf.loc_shape id li slots hlook
  have hslotsmem : ∀ p ∈ slots, ∃ s : Slot, lvl.slotList[p]? = some s ∧
      s.isOccupied = true ∧ s.occupantId = id := by
    intro p hp
    obtain ⟨s, hgs, h1, h2⟩ := hoccs p hp
    rw [Garage.getSlot_eq hk p] at hgs
    exact ⟨s, hgs, h1, h2⟩
  refine ⟨?_, ?_, ?_, ?_, ?_, ?_, ?_, ?_, ?_, ?_⟩
  · simpa using hwf.levels_len
  · intro i lvl0 h0
    by_cases hik : i = li
    · subst hik
      rw [hsetli] at h0
      simp only [Option.some.injEq] at h0
      rw [← h0, hlvlidx, hliidx]
    · rw [List.getElem?_set_ne (fun h => hik h.symm)] at h0
      exact hwf.level_idx i lvl0 h0
  · intro lvl0 hmem0
    rcases List.mem_or_eq_of_mem_set hmem0 with hold | rfl
    · exact hwf.level_wf lvl0 hold
    · refine ⟨by rw [hlen]; exact hlwf.1, ?_, ?_⟩
      · intro j s hs
        by_cases hj : j ∈ slots
        · obtain ⟨s0, hs0, _, _⟩ := hslotsmem j hj
          have h2 : some s =
              some ({ s0 with occupantId := "", isOccupied := false } : Slot) := by
            rw [← hs, hpt j, if_pos hj, hs0]
            rfl
          simp only [Option.some.injEq] at h2
          rw [h2]
          show s0.slotIndex = j
          exact hlwf.2.1 j s0 hs0
        · have h3 := hpt j
          rw [if_neg hj] at h3
          rw [hs] at h3
          exact hlwf.2.1 j s h3.symm
      · intro s hsmem hsfree
        obtain ⟨p, hp⟩ := List.mem_iff_getElem?.mp hsmem
        by_cases hpsl : p ∈ slots
        · obtain ⟨s0, hs0, _, _⟩ := hslotsmem p hpsl
          have h2 : some s =
              some ({ s0 with occupantId := "", isOccupied := false } : Slot) := by
            rw [← hp, hpt p, if_pos hpsl, hs0]
            rfl
          simp only [Option.some.injEq] at h2
          rw [h2]
        · have h3 := hpt p
          rw [if_neg hpsl] at h3
          rw [hp] at h3
          exact hlwf.2.2 s (List.getElem?_mem h3.symm) hsfree
  · exact nodup_keys_eraseP _ _ hwf.loc_nodup
  · exact nodup_keys_eraseP _ _ hwf.cat_nodup
  · intro id0
    by_cases h0 : id0 = id
    · subst h0
      show ((g.machineLocations.eraseP fun p => p.1 == id0).lookup id0).isSome =
        ((g.machineCatalog.eraseP fun p => p.1 == id0).lookup id0).isSome
      rw [lookup_eraseP_self _ _ hwf.loc_nodup, lookup_eraseP_self _ _ hwf.cat_nodup]
      rfl
    · show ((g.machineLocations.eraseP fun p => p.1 == id).lookup id0).isSome =
        ((g.machineCatalog.eraseP fun p => p.1 == id).lookup id0).isSome
      rw [lookup_eraseP_ne _ _ _ h0, lookup_eraseP_ne _ _ _ h0]
      exact hwf.loc_cat id0
  · intro id0 li0 slots0 hlook0
    by_cases h0 : id0 = id
    · subst h0
      rw [show ((g.machineLocations.eraseP fun p => p.1 == id0).lookup id0) = none from
        lookup_eraseP_self _ _ hwf.loc_nodup] at hlook0
      simp at hlook0
    · rw [show ((g.machineLocations.eraseP fun p => p.1 == id).lookup id0) =
        g.machineLocations.lookup id0 from lookup_eraseP_ne _ _ _ h0] at hlook0
      obtain ⟨m1, hcat1, hm1, hsh1⟩ := hwf.loc_shape id0 li0 slots0 hlook0
      refine ⟨m1, ?_, hm1, hsh1⟩
      show ((g.machineCatalog.eraseP fun p => p.1 == id).lookup id0) = some m1
      rw [lookup_eraseP_ne _ _ _ h0]
      exact hcat1
  · intro id0 li0 slots0 hlook0
    by_cases h0 : id0 = id
    · subst h0
      rw [show ((g.machineLocations.eraseP fun p => p.1 == id0).lookup id0) = none from
        lookup_eraseP_self _ _ hwf.loc_nodup] at hlook0
      simp at hlook0
    · rw [show ((g.machineLocations.eraseP fun p => p.1 == id).lookup id0) =
        g.machineLocations.lookup id0 from lookup_eraseP_ne _ _ _ h0] at hlook0
      obtain ⟨hli0, hocc0⟩ := hwf.loc_occ id0 li0 slots0 hlook0
      refine ⟨by simpa using hli0, ?_⟩
      intro p hp
      obtain ⟨s0, hgs0, hso, hsid⟩ := hocc0 p hp
      by_cases hlik : li0 = li
      · subst hlik
        have hold : lvl.slotList[p]? = some s0 := by
          rw [Garage.getSlot_eq hk p] at hgs0
          exact hgs0
        have hpnot : p ∉ slots := by
          intro hpsl
          obtain ⟨s1, hs1, _, hs1id⟩ := hslotsmem p hpsl
          rw [hold] at hs1
          simp only [Option.some.injEq] at hs1
          rw [← hs1] at hs1id
          rw [hsid] at hs1id
          exact h0 hs1id
        refine ⟨s0, ?_, hso, hsid⟩
        rw [Garage.getSlot_eq hsetli p, hpt p, if_neg hpnot]
        exact hold
      · refine ⟨s0, ?_, hso, hsid⟩
        rw [getSlot_set_ne hlik]
        exact hgs0
  · intro li0 p s hget hocc0
    by_cases hlik : li0 = li
    · subst hlik
      rw [Garage.getSlot_eq hsetli p, hpt p] at hget
      by_cases hpsl : p ∈ slots
      · rw [if_pos hpsl] at hget
        obtain ⟨s0, hs0, _, _⟩ := hslotsmem p hpsl
        rw [hs0] at hget
        simp only [Option.map_some', Option.some.injEq] at hget
        rw [← hget] at hocc0
        simp at hocc0
      · rw [if_neg hpsl] at hget
        obtain ⟨slots1, hlook1, hp1⟩ := hwf.occ_loc li0 p s
          (by rw [Garage.getSlot_eq hk p]; exact hget) hocc0
        have hne : s.occupantId ≠ id := by
          intro heq
          rw [heq, hlook] at hlook1
          simp only [Option.some.injEq, Prod.mk.injEq] at hlook1
          exact hpsl (by rw [hlook1.2]; exact hp1)
        refine ⟨slots1, ?_, hp1⟩
        show ((g.machineLocations.eraseP fun q => q.1 == id).lookup s.occupantId) =
          some (li0, slots1)
        rw [lookup_eraseP_ne _ _ _ hne]
        exact hlook1
    · rw [getSlot_set_ne hlik] at hget
      obtain ⟨slots1, hlook1, hp1⟩ := hwf.occ_loc li0 p s hget hocc0
      have hne : s.occupantId ≠ id := by
        intro heq
        rw [heq, hlook] at hlook1
        simp only [Option.some.injEq, Prod.mk.injEq] at hlook1
        exact hlik hlook1.1.symm
      refine ⟨slots1, ?_, hp1⟩
      show ((g.machineLocations.eraseP fun q => q.1 == id).lookup s.occupantId) =
        some (li0, slots1)
      rw [lookup_eraseP_ne _ _ _ hne]
      exact hlook1
  · unfold Garage.freeTotal Garage.parkedTotal
    have h1 := sum_map_set_add Level.freeSlotsCount g.levels li lvlR lvl hk
    have h2 := sum_slots_eraseP g.machineCatalog id m0 hcat0
    have h4 : slots.length = m0.slotsNeeded := by
      rcases hsh0 with ⟨hm1, j, rfl⟩ | ⟨hm2, j, rfl⟩
      · simp [hm1]
      · simp [hm2]
    have h3 := hwf.sum_inv
    unfold Garage.freeTotal Garage.parkedTotal at h3
    show (List.map Level.freeSlotsCount (g.levels.set li lvlR)).sum +
      (List.map (fun p => p.2.slotsNeeded)
        (List.eraseP (fun p => p.1 == id) g.machineCatalog)).sum = L * N
    omega

lemma wf_unpark {L N : Nat} {g : Garage} (hwf : Garage.WF L N g) (id : String) :
    Garage.WF L N (g.unparkMachine id).2 := by
  cases hlook : g.machineLocations.lookup id with
  | none =>
    rw [unparkMachine_notFound hlook]
    exact hwf
  | some entry =>
    obtain ⟨li, slots⟩ := entry
    have hlilt : li < g.levels.length := (hwf.loc_occ id li slots hlook).1
    obtain ⟨lvl, hk⟩ : ∃ lvl : Level, g.levels[li]? = some lvl :=
      ⟨g.levels.get ⟨li, hlilt⟩, by rw [List.getElem?_eq_getElem hlilt]; rfl⟩
    have hslotsmem : ∀ p ∈ slots, ∃ s : Slot, lvl.slotList[p]? = some s ∧
        s.isOccupied = true ∧ s.occupantId = id := by
      intro p hp
      obtain ⟨s, hgs, h1, h2⟩ := (hwf.loc_occ id li slots hlook).2 p hp
      rw [Garage.getSlot_eq hk p] at hgs
      exact ⟨s, hgs, h1, h2⟩
    have hothers : ∀ (p : Nat) (s' : Slot), lvl.slotList[p]? = some s' → p ∉ slots →
        (s'.isOccupied && s'.occupantId == id) = false := by
      intro p s' hs' hpn
      rcases Bool.eq_false_or_eq_true s'.isOccupied with ho | ho
      · obtain ⟨slots1, hlook1, hp1⟩ := hwf.occ_loc li p s'
          (by rw [Garage.getSlot_eq hk p]; exact hs') ho
        by_cases hidq : s'.occupantId = id
        · rw [hidq, hlook] at hlook1
          simp only [Option.some.injEq, Prod.mk.injEq] at hlook1
          exact absurd (by rw [hlook1.2]; exact hp1) hpn
        · simp [ho, hidq]
      · simp [ho]
    obtain ⟨m0, hcat0, hm0, hsh0⟩ := hwf.loc_shape id li slots hlook
    rcases hsh0 with ⟨hm1, j, rfl⟩ | ⟨hm2, j, rfl⟩
    · obtain ⟨s, hj, hocc, hids⟩ := hslotsmem j (by simp)
      have hjlt : j < lvl.slotList.length := (List.getElem?_eq_some.mp hj).1
      have hrm := removeMachine_single hj hocc hids
        (fun p s' hps hpj => hothers p s' hps (by simpa using hpj))
      rw [unparkMachine_eq hlook hk hrm]
      refine wf_unpark_core hwf id hlook hk rfl (by simp) ?_ ?_
      · intro p
        show (lvl.slotList.set j ({ s with occupantId := "", isOccupied := false }))[p]? = _
        by_cases hpj : p = j
        · subst hpj
          rw [if_pos (List.mem_singleton.mpr rfl)]
          rw [List.getElem?_set_self hjlt, hj]
          rfl
        · rw [if_neg (by simpa using hpj)]
          rw [List.getElem?_set_ne (fun h => hpj h.symm)]
      · show (lvl.slotList.set j
            ({ s with occupantId := "", isOccupied := false })).countP
            (fun s => !s.isOccupied) =
          lvl.slotList.countP (fun s => !s.isOccupied) + 1
        exact freeCount_set_vacate hj hocc
          (show ({ s with occupantId := "", isOccupied := false } : Slot).isOccupied = false
            from rfl)
    · obtain ⟨a, hja, hocca, hidsa⟩ := hslotsmem j (by simp)
      obtain ⟨b, hjb, hoccb, hidsb⟩ := hslotsmem (j + 1) (by simp)
      have hjlt : j < lvl.slotList.length := (List.getElem?_eq_some.mp hja).1
      have hjlt2 : j + 1 < lvl.slotList.length := (List.getElem?_eq_some.mp hjb).1
      have hrm := removeMachine_pair hja hjb hocca hidsa hoccb hidsb
        (fun p s' hps hp1 hp2 => hothers p s' hps (by simp [hp1, hp2]))
      rw [unparkMachine_eq hlook hk hrm]
      refine wf_unpark_core hwf id hlook hk rfl (by simp) ?_ ?_
      · intro p
        show ((lvl.slotList.set j ({ a with occupantId := "", isOccupied := false })).set
            (j + 1) ({ b with occupantId := "", isOccupied := false }))[p]? = _
        by_cases hp2 : p = j + 1
        · subst hp2
          rw [if_pos (by simp)]
          rw [List.getElem?_set_self (by simpa using hjlt2), hjb]
          rfl
        · by_cases hp1 : p = j
          · subst hp1
            rw [if_pos (by simp)]
            rw [List.getElem?_set_ne (fun h => hp2 h.symm),
              List.getElem?_set_self hjlt, hja]
            rfl
          · rw [if_neg (by simp [hp1, hp2])]
            rw [List.getElem?_set_ne (fun h => hp2 h.symm),
              List.getElem?_set_ne (fun h => hp1 h.symm)]
      · show ((lvl.slotList.set j ({ a with occupantId := "", isOccupied := false })).set
            (j + 1) ({ b with occupantId := "", isOccupied := false })).countP
            (fun s => !s.isOccupied) =
          lvl.slotList.countP (fun s => !s.isOccupied) + 2
        have h1 : (lvl.slotList.set j
            ({ a with occupantId := "", isOccupied := false }))[j + 1]? = some b := by
          rw [List.getElem?_set_ne (by omega), hjb]
        have h2 := freeCount_set_vacate h1 hoccb
          (show ({ b with occupantId := "", isOccupied := false } : Slot).isOccupied = false
            from rfl)
        have h3 := freeCount_set_vacate hja hocca
          (show ({ a with occupantId := "", isOccupied := false } : Slot).isOccupied = false
            from rfl)
        omega

lemma reachable_wf {L N : Nat} {g : Garage} (h : Garage.Reachable L N g) :
    Garage.WF L N g := by
  induction h with
  | init => exact wf_mkGarage L N
  | store m _ ih => exact wf_store ih m
  | unpark id _ ih => exact wf_unpark ih id

lemma tryStore_some_si {lvl lvl' : Level} {m : Machine} {si : List Nat}
    (h : lvl.tryStore m = some (lvl', si)) : si = lvl.spotsAvailable m := by
  simp only [Level.tryStore] at h
  split at h
  · exact absurd h (by simp)
  · split at h
    · simp only [Option.some.injEq, Prod.mk.injEq] at h
      exact h.2.symm
    · exact absurd h (by simp)

lemma storeMachine_success_spec {L N : Nat} {g : Garage} {m : Machine}
    (hwf : Garage.WF L N g) (hsucc : (g.storeMachine m).1 = true) :
    ∃ (k : Nat) (lvl lvl' : Level) (si : List Nat),
      g.machineLocations.lookup m.identifier = none ∧
      g.levels[k]? = some lvl ∧
      (∀ (i : Nat) (l0 : Level), i < k → g.levels[i]? = some l0 →
        l0.spotsAvailable m = []) ∧
      lvl.tryStore m = some (lvl', si) ∧
      si = lvl.spotsAvailable m ∧
      (g.storeMachine m).2 = ⟨g.levels.set k lvl',
        (m.identifier, (k, si)) :: g.machineLocations,
        (m.identifier, m) :: g.machineCatalog⟩ := by
  by_cases hid : (g.machineLocations.lookup m.identifier).isSome
  · rw [storeMachine_parked hid] at hsucc
    simp at hsucc
  · have hid' := Option.not_isSome_iff_eq_none.mp hid
    cases hloop : storeLoop m g.levels with
    | none =>
      rw [storeMachine_noSpace hid' hloop] at hsucc
      simp at hsucc
    | some res =>
      obtain ⟨levels', li, si⟩ := res
      obtain ⟨k, lvl, lvl', si0, hk, hbefore, htry, hres⟩ := storeLoop_spec hloop
      simp only [Prod.mk.injEq] at hres
      obtain ⟨hlev, hli, hsi⟩ := hres
      have hkidx : lvl.levelIndex = k := hwf.level_idx k lvl hk
      refine ⟨k, lvl, lvl', si0, hid', hk, ?_, htry, tryStore_some_si htry, ?_⟩
      · intro i l0 hik hil
        have hmem0 : l0 ∈ g.levels := List.getElem?_mem hil
        exact (tryStore_eq_none_iff (hwf.level_wf l0 hmem0)).mp (hbefore i l0 hik hil)
      · rw [storeMachine_eq_some hid' hloop]
        show (⟨levels', (m.identifier, (li, si)) :: g.machineLocations,
          (m.identifier, m) :: g.machineCatalog⟩ : Garage) = _
        rw [hlev, hli, hkidx, hsi]

/-- Spec-side predicate: some level of the garage holds two contiguous
free slots, at positions `j` and `j+1` of the same level. -/
def Garage.hasContiguousFreePair (g : Garage) : Prop :=
  ∃ (li j : Nat) (a b : Slot), g.getSlot li j = some a ∧ g.getSlot li (j + 1) = some b ∧
    a.isOccupied = false ∧ b.isOccupied = false

/-- Spec-side predicate: the level has room for the machine — a free
slot for a 1-slot machine, an adjacent free pair of slots for a 2-slot
machine. -/
def Level.hasFit (lvl : Level) (m : Machine) : Prop :=
  if m.slotsNeeded = 1 then
    ∃ (j : Nat) (s : Slot), lvl.slotList[j]? = some s ∧ s.isOccupied = false
  else
    ∃ (j : Nat) (a b : Slot), lvl.slotList[j]? = some a ∧ lvl.slotList[j+1]? = some b ∧
      a.isOccupied = false ∧ b.isOccupied = false

lemma spotsAvailable_eq_nil_iff (lvl : Level) (m : Machine) :
    lvl.spotsAvailable m = [] ↔ ¬ lvl.hasFit m := by
  unfold Level.hasFit
  rcases slotsNeeded_cases m with hm | hm
  · rw [spotsAvailable_one hm, if_pos hm, firstFreeSlot_eq_nil_iff]
    constructor
    · intro hall hfit
      obtain ⟨j, s, hj, hfree⟩ := hfit
      rw [hall s (List.getElem?_mem hj)] at hfree
      cases hfree
    · intro hnone s hsmem
      rcases Bool.eq_false_or_eq_true s.isOccupied with h | h
      · exact h
      · obtain ⟨j, hj⟩ := List.mem_iff_getElem?.mp hsmem
        exact absurd ⟨j, s, hj, h⟩ hnone
  · rw [spotsAvailable_two hm, if_neg (by omega), firstFreePair_eq_nil_iff]
    constructor
    · intro hall hfit
      obtain ⟨j, a, b, hja, hjb, ha, hb⟩ := hfit
      rcases hall j a b hja hjb with h | h
      · rw [ha] at h; cases h
      · rw [hb] at h; cases h
    · intro hnone j a b hja hjb
      rcases Bool.eq_false_or_eq_true a.isOccupied with h1 | h1
      · exact Or.inl h1
      · rcases Bool.eq_false_or_eq_true b.isOccupied with h2 | h2
        · exact Or.inr h2
        · exact absurd ⟨j, a, b, hja, hjb, h1, h2⟩ hnone

lemma set_getElem_self {α : Type _} {l : List α} {k : Nat} {a : α} (h : l[k]? = some a) :
    l.set k a = l := by
  apply List.ext_getElem?
  intro p
  by_cases hp : p = k
  · subst hp
    rw [List.getElem?_set_self (List.getElem?_eq_some.mp h).1]
    exact h.symm
  · rw [List.getElem?_set_ne (fun hh => hp hh.symm)]

lemma slot_vac_eq {s : Slot} (hocc : s.isOccupied = false) (hid : s.occupantId = "") :
    ({ s with occupantId := "", isOccupied := false } : Slot) = s := by
  cases s with
  | mk lv si oc oid =>
    simp only at hocc hid
    rw [hocc, hid]

/-! ### Claim theorems -/

/-- C1: after every sequence of park/unpark operations from a fresh
garage, an identifier is in the location map iff it is in the vehicle
catalog; every slot recorded for an identifier is occupied with exactly
that identifier as occupant; and no slot is referenced by two different
identifiers' location entries. -/
theorem spec_c1 (L N : Nat) (g : Garage) (h : Garage.Reachable L N g) :
    (∀ id : String, (g.machineLocations.lookup id).isSome = true ↔
      (g.machineCatalog.lookup id).isSome = true) ∧
    (∀ (id : String) (li : Nat) (slots : List Nat),
      g.machineLocations.lookup id = some (li, slots) →
      ∀ p ∈ slots, ∃ s : Slot, g.getSlot li p = some s ∧ s.isOccupied = true ∧
        s.occupantId = id) ∧
    (∀ (id1 id2 : String) (li1 li2 : Nat) (sl1 sl2 : List Nat),
      g.machineLocations.lookup id1 = some (li1, sl1) →
      g.machineLocations.lookup id2 = some (li2, sl2) →
      id1 ≠ id2 → li1 = li2 → ∀ p : Nat, p ∈ sl1 → p ∉ sl2) := by
  have hwf := reachable_wf h
  refine ⟨fun id => by rw [hwf.loc_cat id],
    fun id li slots hl => (hwf.loc_occ id li slots hl).2, ?_⟩
  intro id1 id2 li1 li2 sl1 sl2 h1 h2 hne hli p hp1 hp2
  obtain ⟨s1, hg1, ho1, hid1⟩ := (hwf.loc_occ id1 li1 sl1 h1).2 p hp1
  obtain ⟨s2, hg2, ho2, hid2⟩ := (hwf.loc_occ id2 li2 sl2 h2).2 p hp2
  rw [hli] at hg1
  rw [hg1] at hg2
  simp only [Option.some.injEq] at hg2
  rw [← hg2] at hid2
  exact hne (hid1.symm.trans hid2)

theorem spec_c1_witness :
    (∀ id : String, (((Garage.mkGarage 1 1).machineLocations.lookup id).isSome = true ↔
      ((Garage.mkGarage 1 1).machineCatalog.lookup id).isSome = true)) ∧
    (∀ (id : String) (li : Nat) (slots : List Nat),
      (Garage.mkGarage 1 1).machineLocations.lookup id = some (li, slots) →
      ∀ p ∈ slots, ∃ s : Slot, (Garage.mkGarage 1 1).getSlot li p = some s ∧
        s.isOccupied = true ∧ s.occupantId = id) ∧
    (∀ (id1 id2 : String) (li1 li2 : Nat) (sl1 sl2 : List Nat),
      (Garage.mkGarage 1 1).machineLocations.lookup id1 = some (li1, sl1) →
      (Garage.mkGarage 1 1).machineLocations.lookup id2 = some (li2, sl2) →
      id1 ≠ id2 → li1 = li2 → ∀ p : Nat, p ∈ sl1 → p ∉ sl2) :=
  spec_c1 1 1 (Garage.mkGarage 1 1) Garage.Reachable.init

/-- C4: parking an identifier that already has an active location record
returns failure and leaves the whole garage state unchanged. -/
theorem spec_c4 (g : Garage) (m : Machine)
    (h : (g.machineLocations.lookup m.identifier).isSome = true) :
    g.storeMachine m = (false, g) :=
  storeMachine_parked h

theorem spec_c4_witness :
    ((((Garage.mkGarage 1 2).storeMachine
      ⟨"A", MachineKind.Car⟩).2.machineLocations.lookup "A").isSome = true) ∧
    ((((Garage.mkGarage 1 2).storeMachine ⟨"A", MachineKind.Car⟩).2).storeMachine
        ⟨"A", MachineKind.Truck⟩ =
      (false, ((Garage.mkGarage 1 2).storeMachine ⟨"A", MachineKind.Car⟩).2)) :=
  ⟨by rfl, spec_c4 _ ⟨"A", MachineKind.Truck⟩ (by rfl)⟩

/-- C5: unparking an identifier with no active location record returns
failure and leaves the whole garage state unchanged. -/
theorem spec_c5 (g : Garage) (id : String)
    (h : g.machineLocations.lookup id = none) :
    g.unparkMachine id = (false, g) :=
  unparkMachine_notFound h

theorem spec_c5_witness :
    ((Garage.mkGarage 1 1).machineLocations.lookup "Z" = none) ∧
    ((Garage.mkGarage 1 1).unparkMachine "Z" = (false, Garage.mkGarage 1 1)) :=
  ⟨by rfl, spec_c5 (Garage.mkGarage 1 1) "Z" (by rfl)⟩

/-- C6: in every state reachable from a fresh garage with `L` levels of
`N` slots, the per-level free-slot counts sum to `L*N` minus the total
`slotsNeeded()` of the currently parked machines. -/
theorem spec_c6 (L N : Nat) (g : Garage) (h : Garage.Reachable L N g) :
    g.freeTotal = L * N - g.parkedTotal := by
  have := (reachable_wf h).sum_inv
  omega

theorem spec_c6_witness :
    (Garage.mkGarage 2 3).freeTotal = 2 * 3 - (Garage.mkGarage 2 3).parkedTotal :=
  spec_c6 2 3 (Garage.mkGarage 2 3) Garage.Reachable.init

/-- C8: `slotsNeeded()` is the pure function returning 2 exactly for the
Truck kind and 1 otherwise, and the command boundary maps every string
other than `Bike` and `Car` to the Truck kind, so such a vehicle needs 2
slots. -/
theorem spec_c8 (s id : String) (hb : s ≠ "Bike") (hc : s ≠ "Car") :
    (∀ m : Machine, m.slotsNeeded = if m.kind = MachineKind.Truck then 2 else 1) ∧
    parseKind s = MachineKind.Truck ∧
    (Machine.mk id (parseKind s)).slotsNeeded = 2 := by
  have h2 : parseKind s = MachineKind.Truck := by
    unfold parseKind
    rw [if_neg hb, if_neg hc]
  exact ⟨fun m => rfl, h2, by unfold Machine.slotsNeeded; simp [h2]⟩

theorem spec_c8_witness :
    ("Boat" : String) ≠ "Bike" ∧ ("Boat" : String) ≠ "Car" ∧
    ((∀ m : Machine, m.slotsNeeded = if m.kind = MachineKind.Truck then 2 else 1) ∧
      parseKind "Boat" = MachineKind.Truck ∧
      (Machine.mk "X" (parseKind "Boat")).slotsNeeded = 2) :=
  ⟨by decide, by decide, spec_c8 "Boat" "X" (by decide) (by decide)⟩

/-- C10: when parking an unparked identifier fails (no level yields a
successful assignment), the entire garage state is unchanged. -/
theorem spec_c10 (g : Garage) (m : Machine)
    (hid : g.machineLocations.lookup m.identifier = none)
    (hfail : (g.storeMachine m).1 = false) :
    (g.storeMachine m).2 = g := by
  cases hloop : storeLoop m g.levels with
  | none => rw [storeMachine_noSpace hid hloop]
  | some res =>
    obtain ⟨levels', li, si⟩ := res
    rw [storeMachine_eq_some hid hloop] at hfail
    simp at hfail

theorem spec_c10_witness :
    ((((Garage.mkGarage 1 1).storeMachine
      ⟨"A", MachineKind.Car⟩).2.machineLocations.lookup "B") = none) ∧
    (((((Garage.mkGarage 1 1).storeMachine ⟨"A", MachineKind.Car⟩).2).storeMachine
      ⟨"B", MachineKind.Car⟩).1 = false) ∧
    (((((Garage.mkGarage 1 1).storeMachine ⟨"A", MachineKind.Car⟩).2).storeMachine
        ⟨"B", MachineKind.Car⟩).2 =
      ((Garage.mkGarage 1 1).storeMachine ⟨"A", MachineKind.Car⟩).2) :=
  ⟨by rfl, by rfl, spec_c10 _ ⟨"B", MachineKind.Car⟩ (by rfl) (by rfl)⟩

/-- C7: `assignMachine` first re-checks that every target slot is free;
if any in-range target slot is occupied it returns failure with no slot
mutated, otherwise it occupies every listed slot (with the machine's
identifier) and returns success, leaving unlisted slots unchanged. -/
theorem spec_c7 (lvl : Level) (m : Machine) (idxs : List Nat)
    (hin : ∀ idx ∈ idxs, idx < lvl.slotList.length) :
    ((∃ idx ∈ idxs, slotOccupiedAt lvl.slotList idx = true) →
      lvl.assignMachine m idxs = (false, lvl)) ∧
    ((∀ idx ∈ idxs, slotOccupiedAt lvl.slotList idx = false) →
      (lvl.assignMachine m idxs).1 = true ∧
      (∀ idx ∈ idxs, ∃ s : Slot, lvl.slotList[idx]? = some s ∧
        (lvl.assignMachine m idxs).2.slotList[idx]? =
          some ({ s with occupantId := m.identifier, isOccupied := true })) ∧
      (∀ p : Nat, p ∉ idxs →
        (lvl.assignMachine m idxs).2.slotList[p]? = lvl.slotList[p]?)) := by
  constructor
  · rintro ⟨idx, hmem, hocc⟩
    unfold Level.assignMachine
    rw [if_pos (List.any_eq_true.mpr ⟨idx, hmem, hocc⟩)]
  · intro hall
    have hanyf : (idxs.any fun idx => slotOccupiedAt lvl.slotList idx) = false := by
      rcases Bool.eq_false_or_eq_true
        (idxs.any fun idx => slotOccupiedAt lvl.slotList idx) with hh | hh
      · obtain ⟨idx, hmem, hocc⟩ := List.any_eq_true.mp hh
        rw [hall idx hmem] at hocc
        cases hocc
      · exact hh
    have hassign : lvl.assignMachine m idxs = (true, { lvl with
        slotList := idxs.foldl (fun sl idx => occupyListAt sl idx m.identifier)
          lvl.slotList }) := by
      unfold Level.assignMachine
      rw [if_neg (by rw [hanyf]; simp)]
    rw [hassign]
    refine ⟨rfl, ?_, ?_⟩
    · intro idx hmem
      have hlt := hin idx hmem
      obtain ⟨s, hs⟩ : ∃ s : Slot, lvl.slotList[idx]? = some s :=
        ⟨lvl.slotList.get ⟨idx, hlt⟩, by rw [List.getElem?_eq_getElem hlt]; rfl⟩
      have hfree : s.isOccupied = false := by
        have h1 := hall idx hmem
        unfold slotOccupiedAt at h1
        rw [hs] at h1
        exact h1
      refine ⟨s, hs, ?_⟩
      show (idxs.foldl (fun sl idx => occupyListAt sl idx m.identifier)
        lvl.slotList)[idx]? = _
      rw [occupyFold_getElem, if_pos hmem, hs]
      simp [hfree]
    · intro p hpn
      show (idxs.foldl (fun sl idx => occupyListAt sl idx m.identifier)
        lvl.slotList)[p]? = _
      rw [occupyFold_getElem, if_neg hpn]

theorem spec_c7_witness :
    (∀ idx ∈ [0, 1], idx < (Level.mkLevel 0 2).slotList.length) ∧
    (((∃ idx ∈ [0, 1], slotOccupiedAt (Level.mkLevel 0 2).slotList idx = true) →
      (Level.mkLevel 0 2).assignMachine ⟨"A", MachineKind.Car⟩ [0, 1] =
        (false, Level.mkLevel 0 2)) ∧
    ((∀ idx ∈ [0, 1], slotOccupiedAt (Level.mkLevel 0 2).slotList idx = false) →
      ((Level.mkLevel 0 2).assignMachine ⟨"A", MachineKind.Car⟩ [0, 1]).1 = true ∧
      (∀ idx ∈ [0, 1], ∃ s : Slot, (Level.mkLevel 0 2).slotList[idx]? = some s ∧
        ((Level.mkLevel 0 2).assignMachine
          ⟨"A", MachineKind.Car⟩ [0, 1]).2.slotList[idx]? =
          some ({ s with occupantId := "A", isOccupied := true })) ∧
      (∀ p : Nat, p ∉ ([0, 1] : List Nat) →
        ((Level.mkLevel 0 2).assignMachine ⟨"A", MachineKind.Car⟩ [0, 1]).2.slotList[p]? =
          (Level.mkLevel 0 2).slotList[p]?))) :=
  ⟨by decide, spec_c7 (Level.mkLevel 0 2) ⟨"A", MachineKind.Car⟩ [0, 1] (by decide)⟩

/-- C3: a successful park is deterministic first-fit: levels are scanned
in ascending index order and the first level with a match wins; within
the level a 1-slot vehicle gets the lowest-indexed free slot and a
2-slot vehicle the lowest-indexed adjacent free pair (i, i+1), never
wrapping across levels; a level's scan returns empty exactly when it has
no fit. -/
theorem spec_c3 (L N : Nat) (g : Garage) (m : Machine) (k : Nat) (si : List Nat)
    (hre : Garage.Reachable L N g)
    (hsucc : (g.storeMachine m).1 = true)
    (hrec : (g.storeMachine m).2.machineLocations.lookup m.identifier = some (k, si)) :
    ∃ lvl : Level, g.levels[k]? = some lvl ∧
      (∀ (i : Nat) (l0 : Level), i < k → g.levels[i]? = some l0 →
        l0.spotsAvailable m = []) ∧
      si = lvl.spotsAvailable m ∧
      (m.slotsNeeded = 1 → ∃ (j : Nat) (s : Slot), lvl.slotList[j]? = some s ∧
        s.isOccupied = false ∧ si = [j] ∧
        ∀ (p : Nat) (s' : Slot), p < j → lvl.slotList[p]? = some s' →
          s'.isOccupied = true) ∧
      (m.slotsNeeded = 2 → ∃ (j : Nat) (a b : Slot), lvl.slotList[j]? = some a ∧
        lvl.slotList[j+1]? = some b ∧ a.isOccupied = false ∧ b.isOccupied = false ∧
        si = [j, j + 1] ∧
        ∀ (p : Nat) (a' b' : Slot), p < j → lvl.slotList[p]? = some a' →
          lvl.slotList[p+1]? = some b' →
          a'.isOccupied = true ∨ b'.isOccupied = true) ∧
      (∀ lvl2 ∈ g.levels, lvl2.spotsAvailable m = [] ↔ ¬ lvl2.hasFit m) := by
  have hwf := reachable_wf hre
  obtain ⟨k0, lvl, lvl', si0, hid, hk0, hbefore, htry, hsi0, hstate⟩ :=
    storeMachine_success_spec hwf hsucc
  have hreck : (g.storeMachine m).2.machineLocations.lookup m.identifier =
      some (k0, si0) := by
    rw [hstate]
    show ((m.identifier, (k0, si0)) :: g.machineLocations).lookup m.identifier = _
    rw [lookup_cons, if_pos rfl]
  rw [hrec] at hreck
  simp only [Option.some.injEq, Prod.mk.injEq] at hreck
  obtain ⟨hh1, hh2⟩ := hreck
  subst hh1
  subst hh2
  have hlwf := hwf.level_wf lvl (List.getElem?_mem hk0)
  refine ⟨lvl, hk0, hbefore, hsi0, ?_, ?_, fun lvl2 _ => spotsAvailable_eq_nil_iff lvl2 m⟩
  · intro hm
    obtain ⟨j, s, hj, hfree, hsij, hmin, _⟩ := tryStore_single hlwf hm htry
    exact ⟨j, s, hj, hfree, hsij, hmin⟩
  · intro hm
    obtain ⟨j, a, b, hja, hjb, ha, hb, hsij, hmin, _⟩ := tryStore_pair hlwf hm htry
    exact ⟨j, a, b, hja, hjb, ha, hb, hsij, hmin⟩

theorem spec_c3_witness :
    (((Garage.mkGarage 1 2).storeMachine ⟨"A", MachineKind.Car⟩).1 = true) ∧
    (((Garage.mkGarage 1 2).storeMachine
        ⟨"A", MachineKind.Car⟩).2.machineLocations.lookup "A" = some (0, [0])) ∧
    (∃ lvl : Level, (Garage.mkGarage 1 2).levels[0]? = some lvl ∧
      (∀ (i : Nat) (l0 : Level), i < 0 → (Garage.mkGarage 1 2).levels[i]? = some l0 →
        l0.spotsAvailable ⟨"A", MachineKind.Car⟩ = []) ∧
      ([0] : List Nat) = lvl.spotsAvailable ⟨"A", MachineKind.Car⟩ ∧
      ((⟨"A", MachineKind.Car⟩ : Machine).slotsNeeded = 1 →
        ∃ (j : Nat) (s : Slot), lvl.slotList[j]? = some s ∧
        s.isOccupied = false ∧ ([0] : List Nat) = [j] ∧
        ∀ (p : Nat) (s' : Slot), p < j → lvl.slotList[p]? = some s' →
          s'.isOccupied = true) ∧
      ((⟨"A", MachineKind.Car⟩ : Machine).slotsNeeded = 2 →
        ∃ (j : Nat) (a b : Slot), lvl.slotList[j]? = some a ∧
        lvl.slotList[j+1]? = some b ∧ a.isOccupied = false ∧ b.isOccupied = false ∧
        ([0] : List Nat) = [j, j + 1] ∧
        ∀ (p : Nat) (a' b' : Slot), p < j → lvl.slotList[p]? = some a' →
          lvl.slotList[p+1]? = some b' →
          a'.isOccupied = true ∨ b'.isOccupied = true) ∧
      (∀ lvl2 ∈ (Garage.mkGarage 1 2).levels,
        lvl2.spotsAvailable ⟨"A", MachineKind.Car⟩ = [] ↔
          ¬ lvl2.hasFit ⟨"A", MachineKind.Car⟩)) :=
  ⟨by rfl, by rfl,
    spec_c3 1 2 (Garage.mkGarage 1 2) ⟨"A", MachineKind.Car⟩ 0 [0]
      Garage.Reachable.init (by rfl) (by rfl)⟩

/-- C2 (as stated) is false: in a garage holding a contiguous free pair,
parking a 2-slot vehicle whose identifier is already parked fails.
Concretely: park Car "A" in a 1-level 3-slot garage, then park Truck
"A" — slots 1 and 2 are a free pair, yet the park fails. -/
theorem spec_c2_counterexample :
    ((((Garage.mkGarage 1 3).storeMachine
      ⟨"A", MachineKind.Car⟩).2).hasContiguousFreePair) ∧
    (⟨"A", MachineKind.Truck⟩ : Machine).slotsNeeded = 2 ∧
    ((((Garage.mkGarage 1 3).storeMachine ⟨"A", MachineKind.Car⟩).2).storeMachine
      ⟨"A", MachineKind.Truck⟩).1 = false :=
  ⟨⟨0, 1, ⟨0, 1, false, ""⟩, ⟨0, 2, false, ""⟩, by rfl, by rfl, rfl, rfl⟩, rfl, by rfl⟩

/-- C2 (amended with the precondition forced by the counterexample: the
vehicle's identifier has no active location record, over reachable
states): parking a 2-slot vehicle succeeds iff some single level holds
two contiguous free slots; on success exactly those two slots become
occupied (by this vehicle), every other slot is unchanged, and the
winning level's free-slot count decreases by 2. -/
theorem spec_c2 (L N : Nat) (g : Garage) (m : Machine)
    (hre : Garage.Reachable L N g) (hm : m.slotsNeeded = 2)
    (hid : g.machineLocations.lookup m.identifier = none) :
    ((g.storeMachine m).1 = true ↔ g.hasContiguousFreePair) ∧
    ((g.storeMachine m).1 = true →
      ∃ (k j : Nat) (lvl : Level) (a b : Slot),
        g.levels[k]? = some lvl ∧ lvl.slotList[j]? = some a ∧
        lvl.slotList[j+1]? = some b ∧ a.isOccupied = false ∧ b.isOccupied = false ∧
        (g.storeMachine m).2.getSlot k j =
          some ({ a with occupantId := m.identifier, isOccupied := true }) ∧
        (g.storeMachine m).2.getSlot k (j+1) =
          some ({ b with occupantId := m.identifier, isOccupied := true }) ∧
        (∀ li p : Nat, li ≠ k ∨ (p ≠ j ∧ p ≠ j + 1) →
          (g.storeMachine m).2.getSlot li p = g.getSlot li p) ∧
        (∃ lvl2 : Level, (g.storeMachine m).2.levels[k]? = some lvl2 ∧
          lvl2.freeSlotsCount + 2 = lvl.freeSlotsCount)) := by
  have hwf := reachable_wf hre
  constructor
  · constructor
    · intro hsucc
      obtain ⟨k, lvl, lvl', si, _, hk, _, htry, _, _⟩ := storeMachine_success_spec hwf hsucc
      have hlwf := hwf.level_wf lvl (List.getElem?_mem hk)
      obtain ⟨j, a, b, hja, hjb, ha, hb, _, _, _⟩ := tryStore_pair hlwf hm htry
      exact ⟨k, j, a, b, by rw [Garage.getSlot_eq hk]; exact hja,
        by rw [Garage.getSlot_eq hk]; exact hjb, ha, hb⟩
    · intro hpair
      by_contra hfail
      have hfail' : (g.storeMachine m).1 = false := Bool.eq_false_iff.mpr hfail
      cases hloop : storeLoop m g.levels with
      | some res =>
        obtain ⟨levels', li, si⟩ := res
        rw [storeMachine_eq_some hid hloop] at hfail'
        simp at hfail'
      | none =>
        rw [storeLoop_eq_none_iff] at hloop
        obtain ⟨li, j, a, b, hga, hgb, ha, hb⟩ := hpair
        cases hx : g.levels[li]? with
        | none =>
          unfold Garage.getSlot at hga
          rw [hx] at hga
          cases hga
        | some lvl0 =>
          have hfit : lvl0.hasFit m := by
            unfold Level.hasFit
            rw [if_neg (by omega)]
            rw [Garage.getSlot_eq hx] at hga hgb
            exact ⟨j, a, b, hga, hgb, ha, hb⟩
          have hnone := (tryStore_eq_none_iff
            (hwf.level_wf lvl0 (List.getElem?_mem hx))).mp
            (hloop lvl0 (List.getElem?_mem hx))
          exact absurd hfit ((spotsAvailable_eq_nil_iff lvl0 m).mp hnone)
  · intro hsucc
    obtain ⟨k, lvl, lvl', si, _, hk, _, htry, _, hstate⟩ :=
      storeMachine_success_spec hwf hsucc
    have hlwf := hwf.level_wf lvl (List.getElem?_mem hk)
    have hklt : k < g.levels.length := (List.getElem?_eq_some.mp hk).1
    obtain ⟨j, a, b, hja, hjb, ha, hb, hsij, hmin, hlvl'⟩ := tryStore_pair hlwf hm htry
    have hjlt : j < lvl.slotList.length := (List.getElem?_eq_some.mp hja).1
    have hjlt2 : j + 1 < lvl.slotList.length := (List.getElem?_eq_some.mp hjb).1
    have hsetk : ((g.storeMachine m).2).levels[k]? = some lvl' := by
      rw [hstate]
      show (g.levels.set k lvl')[k]? = some lvl'
      exact List.getElem?_set_self hklt
    refine ⟨k, j, lvl, a, b, hk, hja, hjb, ha, hb, ?_, ?_, ?_, ?_⟩
    · rw [Garage.getSlot_eq hsetk, hlvl']
      show ((lvl.slotList.set j
          ({ a with occupantId := m.identifier, isOccupied := true })).set (j + 1)
          ({ b with occupantId := m.identifier, isOccupied := true }))[j]? = _
      rw [List.getElem?_set_ne (by omega), List.getElem?_set_self hjlt]
    · rw [Garage.getSlot_eq hsetk, hlvl']
      show ((lvl.slotList.set j
          ({ a with occupantId := m.identifier, isOccupied := true })).set (j + 1)
          ({ b with occupantId := m.identifier, isOccupied := true }))[j + 1]? = _
      rw [List.getElem?_set_self (by simpa using hjlt2)]
    · intro li p hcond
      rw [hstate]
      rcases hcond with hne | ⟨hp1, hp2⟩
      · exact getSlot_set_ne hne
      · by_cases hlik : li = k
        · subst hlik
          rw [Garage.getSlot_eq (show (g.levels.set li lvl')[li]? = some lvl' from
            List.getElem?_set_self hklt), Garage.getSlot_eq hk, hlvl']
          show ((lvl.slotList.set j
              ({ a with occupantId := m.identifier, isOccupied := true })).set (j + 1)
              ({ b with occupantId := m.identifier, isOccupied := true }))[p]? =
            lvl.slotList[p]?
          rw [List.getElem?_set_ne (fun h => hp2 h.symm),
            List.getElem?_set_ne (fun h => hp1 h.symm)]
        · exact getSlot_set_ne hlik
    · refine ⟨lvl', hsetk, ?_⟩
      rw [hlvl']
      show ((lvl.slotList.set j
          ({ a with occupantId := m.identifier, isOccupied := true })).set (j + 1)
          ({ b with occupantId := m.identifier, isOccupied := true })).countP
          (fun s => !s.isOccupied) + 2 =
        lvl.slotList.countP (fun s => !s.isOccupied)
      have h1 : (lvl.slotList.set j
          ({ a with occupantId := m.identifier, isOccupied := true }))[j + 1]? =
          some b := by
        rw [List.getElem?_set_ne (by omega), hjb]
      have h2 := freeCount_set_occupy h1 hb
        (show ({ b with occupantId := m.identifier, isOccupied := true } : Slot).isOccupied
          = true from rfl)
      have h3 := freeCount_set_occupy hja ha
        (show ({ a with occupantId := m.identifier, isOccupied := true } : Slot).isOccupied
          = true from rfl)
      omega

theorem spec_c2_witness :
    (⟨"T", MachineKind.Truck⟩ : Machine).slotsNeeded = 2 ∧
    (Garage.mkGarage 1 2).machineLocations.lookup "T" = none ∧
    ((((Garage.mkGarage 1 2).storeMachine ⟨"T", MachineKind.Truck⟩).1 = true ↔
      (Garage.mkGarage 1 2).hasContiguousFreePair) ∧
    (((Garage.mkGarage 1 2).storeMachine ⟨"T", MachineKind.Truck⟩).1 = true →
      ∃ (k j : Nat) (lvl : Level) (a b : Slot),
        (Garage.mkGarage 1 2).levels[k]? = some lvl ∧ lvl.slotList[j]? = some a ∧
        lvl.slotList[j+1]? = some b ∧ a.isOccupied = false ∧ b.isOccupied = false ∧
        ((Garage.mkGarage 1 2).storeMachine ⟨"T", MachineKind.Truck⟩).2.getSlot k j =
          some ({ a with occupantId := "T", isOccupied := true }) ∧
        ((Garage.mkGarage 1 2).storeMachine
          ⟨"T", MachineKind.Truck⟩).2.getSlot k (j+1) =
          some ({ b with occupantId := "T", isOccupied := true }) ∧
        (∀ li p : Nat, li ≠ k ∨ (p ≠ j ∧ p ≠ j + 1) →
          ((Garage.mkGarage 1 2).storeMachine ⟨"T", MachineKind.Truck⟩).2.getSlot li p =
            (Garage.mkGarage 1 2).getSlot li p) ∧
        (∃ lvl2 : Level, ((Garage.mkGarage 1 2).storeMachine
            ⟨"T", MachineKind.Truck⟩).2.levels[k]? = some lvl2 ∧
          lvl2.freeSlotsCount + 2 = lvl.freeSlotsCount))) :=
  ⟨rfl, by rfl,
    spec_c2 1 2 (Garage.mkGarage 1 2) ⟨"T", MachineKind.Truck⟩
      Garage.Reachable.init rfl (by rfl)⟩

lemma set_set_restore {sl : List Slot} {j : Nat} {a b va vb : Slot}
    (hja : sl[j]? = some a) (hjb : sl[j+1]? = some b) :
    (((sl.set j va).set (j + 1) vb).set j a).set (j + 1) b = sl := by
  have hj1 : j < sl.length := (List.getElem?_eq_some.mp hja).1
  have hj2 : j + 1 < sl.length := (List.getElem?_eq_some.mp hjb).1
  apply List.ext_getElem?
  intro p
  by_cases hp2 : p = j + 1
  · subst hp2
    have hb2 : j + 1 < (((sl.set j va).set (j + 1) vb).set j a).length := by
      simpa using hj2
    rw [List.getElem?_set_self hb2, hjb]
  · rw [List.getElem?_set_ne (fun h => hp2 h.symm)]
    by_cases hp1 : p = j
    · subst hp1
      have hb1 : p < ((sl.set p va).set (p + 1) vb).length := by
        simpa using hj1
      rw [List.getElem?_set_self hb1, hja]
    · rw [List.getElem?_set_ne (fun h => hp1 h.symm),
        List.getElem?_set_ne (fun h => hp2 h.symm),
        List.getElem?_set_ne (fun h => hp1 h.symm)]

lemma store_then_unpark_aux {g : Garage} {m : Machine} {k : Nat} {lvl lvl' : Level}
    {si : List Nat} (hk : g.levels[k]? = some lvl)
    (hrm : lvl'.removeMachine m.identifier = (true, lvl)) :
    (Garage.mk (g.levels.set k lvl')
      ((m.identifier, (k, si)) :: g.machineLocations)
      ((m.identifier, m) :: g.machineCatalog)).unparkMachine m.identifier = (true, g) := by
  have hklt : k < g.levels.length := (List.getElem?_eq_some.mp hk).1
  have h1 := unparkMachine_eq (g := Garage.mk (g.levels.set k lvl')
      ((m.identifier, (k, si)) :: g.machineLocations)
      ((m.identifier, m) :: g.machineCatalog))
    (show ((m.identifier, (k, si)) :: g.machineLocations).lookup m.identifier =
      some (k, si) by rw [lookup_cons, if_pos rfl])
    (show (g.levels.set k lvl')[k]? = some lvl' from List.getElem?_set_self hklt)
    hrm
  rw [h1]
  have hlv : (g.levels.set k lvl').set k lvl = g.levels := by
    rw [List.set_set]
    exact set_getElem_self hk
  show (true, (⟨(g.levels.set k lvl').set k lvl,
    ((m.identifier, (k, si)) :: g.machineLocations).eraseP (fun p => p.1 == m.identifier),
    ((m.identifier, m) :: g.machineCatalog).eraseP (fun p => p.1 == m.identifier)⟩ :
      Garage)) = (true, g)
  rw [hlv, List.eraseP_cons_of_pos (by simp), List.eraseP_cons_of_pos (by simp)]

/-- C9: round-trip — starting from any reachable garage state, if
parking a vehicle whose identifier is not currently parked succeeds,
then immediately unparking that identifier succeeds and restores the
garage exactly (every slot, the location map and the vehicle catalog). -/
theorem spec_c9 (L N : Nat) (g : Garage) (m : Machine)
    (hre : Garage.Reachable L N g)
    (hid : g.machineLocations.lookup m.identifier = none)
    (hs : (g.storeMachine m).1 = true) :
    (g.storeMachine m).2.unparkMachine m.identifier = (true, g) := by
  have hwf := reachable_wf hre
  obtain ⟨k, lvl, lvl', si, _, hk, _, htry, _, hstate⟩ := storeMachine_success_spec hwf hs
  have hlwf := hwf.level_wf lvl (List.getElem?_mem hk)
  have hnotid : ∀ (p : Nat) (s' : Slot), lvl.slotList[p]? = some s' →
      s'.isOccupied = true → s'.occupantId ≠ m.identifier := by
    intro p s' hp ho heq
    obtain ⟨slots1, hlook1, _⟩ := hwf.occ_loc k p s'
      (by rw [Garage.getSlot_eq hk]; exact hp) ho
    rw [heq, hid] at hlook1
    cases hlook1
  rw [hstate]
  rcases slotsNeeded_cases m with hm | hm
  · obtain ⟨j, s, hj, hfree, hsij, _, hlvl'⟩ := tryStore_single hlwf hm htry
    have hjlt : j < lvl.slotList.length := (List.getElem?_eq_some.mp hj).1
    have hclean : s.occupantId = "" := hlwf.2.2 s (List.getElem?_mem hj) hfree
    have hj' : lvl'.slotList[j]? =
        some ({ s with occupantId := m.identifier, isOccupied := true }) := by
      rw [hlvl']
      show (lvl.slotList.set j
        ({ s with occupantId := m.identifier, isOccupied := true }))[j]? = _
      exact List.getElem?_set_self hjlt
    have hothers : ∀ (p : Nat) (s' : Slot), lvl'.slotList[p]? = some s' → p ≠ j →
        (s'.isOccupied && s'.occupantId == m.identifier) = false := by
      intro p s' hp hpj
      rw [hlvl'] at hp
      rw [show (({ lvl with slotList := (lvl.slotList.set j
          ({ s with occupantId := m.identifier, isOccupied := true })) } :
            Level)).slotList = lvl.slotList.set j
          ({ s with occupantId := m.identifier, isOccupied := true }) from rfl] at hp
      rw [List.getElem?_set_ne (fun h => hpj h.symm)] at hp
      rcases Bool.eq_false_or_eq_true s'.isOccupied with ho | ho
      · have := hnotid p s' hp ho
        simp [ho, this]
      · simp [ho]
    have hrm0 := removeMachine_single hj' rfl rfl hothers
    have hrestore : ({ lvl' with slotList := (lvl'.slotList.set j
        ({ ({ s with occupantId := m.identifier, isOccupied := true } : Slot) with
          occupantId := "", isOccupied := false })) } : Level) = lvl := by
      have hv : ({ ({ s with occupantId := m.identifier, isOccupied := true } : Slot) with
          occupantId := "", isOccupied := false } : Slot) = s := slot_vac_eq hfree hclean
      rw [hlvl', hv]
      show ({ lvl with slotList :=
        ((lvl.slotList.set j
          ({ s with occupantId := m.identifier, isOccupied := true })).set j s) } :
            Level) = lvl
      rw [List.set_set, set_getElem_self hj]
    rw [hrestore] at hrm0
    rw [hsij]
    exact store_then_unpark_aux hk hrm0
  · obtain ⟨j, a, b, hja, hjb, hfa, hfb, hsij, _, hlvl'⟩ := tryStore_pair hlwf hm htry
    have hjlt : j < lvl.slotList.length := (List.getElem?_eq_some.mp hja).1
    have hjlt2 : j + 1 < lvl.slotList.length := (List.getElem?_eq_some.mp hjb).1
    have hcleana : a.occupantId = "" := hlwf.2.2 a (List.getElem?_mem hja) hfa
    have hcleanb : b.occupantId = "" := hlwf.2.2 b (List.getElem?_mem hjb) hfb
    have hslots' : lvl'.slotList = (lvl.slotList.set j
        ({ a with occupantId := m.identifier, isOccupied := true })).set (j + 1)
        ({ b with occupantId := m.identifier, isOccupied := true }) := by
      rw [hlvl']
    have hja' : lvl'.slotList[j]? =
        some ({ a with occupantId := m.identifier, isOccupied := true }) := by
      rw [hslots', List.getElem?_set_ne (by omega)]
      exact List.getElem?_set_self hjlt
    have hjb' : lvl'.slotList[j + 1]? =
        some ({ b with occupantId := m.identifier, isOccupied := true }) := by
      rw [hslots']
      exact List.getElem?_set_self (by simpa using hjlt2)
    have hothers : ∀ (p : Nat) (s' : Slot), lvl'.slotList[p]? = some s' → p ≠ j →
        p ≠ j + 1 → (s'.isOccupied && s'.occupantId == m.identifier) = false := by
      intro p s' hp hp1 hp2
      rw [hslots', List.getElem?_set_ne (fun h => hp2 h.symm),
        List.getElem?_set_ne (fun h => hp1 h.symm)] at hp
      rcases Bool.eq_false_or_eq_true s'.isOccupied with ho | ho
      · have := hnotid p s' hp ho
        simp [ho, this]
      · simp [ho]
    have hrm0 := removeMachine_pair hja' hjb' rfl rfl rfl rfl hothers
    have hva : ({ ({ a with occupantId := m.identifier, isOccupied := true } : Slot) with
        occupantId := "", isOccupied := false } : Slot) = a := slot_vac_eq hfa hcleana
    have hvb : ({ ({ b with occupantId := m.identifier, isOccupied := true } : Slot) with
        occupantId := "", isOccupied := false } : Slot) = b := slot_vac_eq hfb hcleanb
    have hrestore : ({ lvl' with slotList := ((lvl'.slotList.set j
        ({ ({ a with occupantId := m.identifier, isOccupied := true } : Slot) with
          occupantId := "", isOccupied := false })).set (j + 1)
        ({ ({ b with occupantId := m.identifier, isOccupied := true } : Slot) with
          occupantId := "", isOccupied := false })) } : Level) = lvl := by
      rw [hva, hvb, hlvl']
      show ({ lvl with slotList := ((((lvl.slotList.set j
          ({ a with occupantId := m.identifier, isOccupied := true })).set (j + 1)
          ({ b with occupantId := m.identifier, isOccupied := true })).set j a).set
          (j + 1) b) } : Level) = lvl
      rw [set_set_restore hja hjb]
    rw [hrestore] at hrm0
    rw [hsij]
    exact store_then_unpark_aux hk hrm0

theorem spec_c9_witness :
    ((Garage.mkGarage 1 1).machineLocations.lookup "A" = none) ∧
    (((Garage.mkGarage 1 1).storeMachine ⟨"A", MachineKind.Car⟩).1 = true) ∧
    (((Garage.mkGarage 1 1).storeMachine ⟨"A", MachineKind.Car⟩).2.unparkMachine "A" =
      (true, Garage.mkGarage 1 1)) :=
  ⟨by rfl, by rfl,
    spec_c9 1 1 (Garage.mkGarage 1 1) ⟨"A", MachineKind.Car⟩
      Garage.Reachable.init (by rfl) (by rfl)⟩
